import Mathlib

/-!
Verification of the WhatsApp delivery-bot core (order extraction and order
lifecycle) against its natural-language specification.

The JavaScript sources are shallowly embedded as executable Lean functions:

* `src/utils/helpers.js`            -> `generateOrderId`, `formatPhoneNumber`
* `src/services/OrderParser.js`     -> `parseOrder` and its helper passes
* `src/services/OrderService.js`    -> `createOrder`, `updateOrderStatus`,
                                        `addOrderHistory` over an explicit store
* `src/services/WhatsAppService.js` -> `markOrderAsDelivered`, `cancelOrder`,
                                        `resolveCommand`

JavaScript strings are modelled by `String` / `List Char`; `str.trim()` is
modelled by `jsTrim` (drop whitespace from both ends), `String.prototype.includes`
by `strContains` (substring occurrence), and the ambient current date used by
the date parser is passed in explicitly as a `CalDate`.  Persistence calls that
can fail at runtime are modelled by explicit boolean failure flags: a flag set
to `true` means "this SQL query throws"; the embedding then follows the exact
`try`/`catch` structure of the source.
-/

namespace WhatsappBot

/-! ## Character classes and basic string modelling -/

/-- JavaScript `[A-Za-z]` (the `Char.isAlpha` of Lean is exactly the ASCII
letter test used by the source's regexes). -/
def isAsciiLetter (c : Char) : Bool := c.isAlpha

/-- JavaScript `\d`, i.e. the ASCII digits `0`-`9`. -/
def isDigitChar (c : Char) : Bool := c.isDigit

/-- JavaScript `\s` (whitespace) as used by the source's regexes and `trim`. -/
def isWsChar (c : Char) : Bool := c.isWhitespace

/-- Trim whitespace from both ends of a character list; this is the embedding
of JavaScript `String.prototype.trim`. -/
def trimL (l : List Char) : List Char :=
  ((l.dropWhile isWsChar).reverse.dropWhile isWsChar).reverse

/-- `str.trim()` on strings. -/
def jsTrim (s : String) : String := ⟨trimL s.data⟩

/-- Substring occurrence, the embedding of `String.prototype.includes`. -/
def strContains (s pat : String) : Bool := decide (pat.data <:+: s.data)

/-- Lowercasing, the embedding of `String.prototype.toLowerCase` on the ASCII
message text handled by the bot. -/
def jsLower (s : String) : String := ⟨s.data.map Char.toLower⟩

/-- The embedding of `String.prototype.startsWith`. -/
def jsStartsWith (s pre : String) : Bool := pre.data.isPrefixOf s.data

/-- The embedding of `String.prototype.substring(n)` (drop the first `n`
characters). -/
def strDrop (s : String) (n : Nat) : String := ⟨s.data.drop n⟩

/-- Split a character list at every occurrence of `sep`. -/
def splitOnChar (sep : Char) : List Char → List (List Char)
  | [] => [[]]
  | c :: t =>
    let r := splitOnChar sep t
    if c = sep then [] :: r
    else
      match r with
      | h :: rest => (c :: h) :: rest
      | [] => [[c]]

/-- The embedding of `String.prototype.split` with a one-character separator
(the source only splits on `':'` and `'\n'`). -/
def splitStr (sep : Char) (s : String) : List String :=
  (splitOnChar sep s.data).map (fun l => ⟨l⟩)

/-! ## `src/utils/helpers.js` -/

/-- Left-pad a numeral with zeroes to 3 characters, the embedding of
`padStart(3, '0')` on `Math.floor(Math.random() * 1000).toString()`. -/
def pad3 (n : Nat) : String :=
  let s := toString n
  if s.length ≥ 3 then s else ⟨List.replicate (3 - s.length) '0' ++ s.data⟩

/-- `Helpers.generateOrderId`: `ORD` + the current date as `YYYYMMDD` + a
3-digit zero-padded random value.  The ambient date string and the random draw
are passed in explicitly. -/
def generateOrderId (date8 : String) (rand : Nat) : String :=
  "ORD" ++ date8 ++ pad3 rand

/-- The digit characters of a string, the embedding of
`phone.replace(/\D/g, '')`. -/
def cleanedDigits (s : String) : List Char := s.data.filter isDigitChar

/-- `Helpers.formatPhoneNumber`: strip non-digits; a leading `0` is replaced by
`234`; a cleaned number not starting with `234` gets `234` prepended; the
result is prefixed with `+`. -/
def formatPhoneNumber (phone : String) : String :=
  let cleaned := cleanedDigits phone
  if cleaned.take 1 = ['0'] then
    ⟨'+' :: '2' :: '3' :: '4' :: cleaned.drop 1⟩
  else if ¬ (cleaned.take 3 = ['2', '3', '4']) then
    ⟨'+' :: '2' :: '3' :: '4' :: cleaned⟩
  else
    ⟨'+' :: cleaned⟩

/-- The spec's own description of phone normalization, §4.3 of the spec,
followed word for word: strip non-digits; if it starts with `0`, replace the
leading `0` with country code `234`; if it does not already start with `234`,
prepend `234`; finally prefix with `+`. -/
def normalizePhoneSpec (phone : String) : String :=
  let digits := cleanedDigits phone
  let step1 := if digits.take 1 = ['0'] then '2' :: '3' :: '4' :: digits.drop 1 else digits
  let step2 := if ¬ (step1.take 3 = ['2', '3', '4']) then '2' :: '3' :: '4' :: step1 else step1
  ⟨'+' :: step2⟩

/-! ## `src/services/OrderParser.js`: pattern library

Each regular expression of the source is embedded as an executable Boolean
test on the character list.  Unanchored regexes become a scan over all start
positions; greedy character-class repetition is modelled by `takeWhile` /
`dropWhile`, which is equivalent here because in every pattern the repeated
class is disjoint from what must follow it. -/

/-- Does `pat` occur as a prefix starting at some position of `l`?  Used for
unanchored literal alternatives. -/
def infixOf (pat : String) (l : List Char) : Bool := decide (pat.data <:+: l)

/-- Scan all suffixes of a list with a position matcher. -/
def anySuffix (p : List Char → Bool) : List Char → Bool
  | [] => p []
  | c :: t => p (c :: t) || anySuffix p t

/-- `/^[A-Za-z\s]{2,50}$/` -/
def nameRe1 (s : String) : Bool :=
  decide (2 ≤ s.data.length) && decide (s.data.length ≤ 50) &&
    s.data.all (fun c => isAsciiLetter c || isWsChar c)

/-- `/^[A-Za-z]+\s+[A-Za-z]+/` -/
def nameRe2 (s : String) : Bool :=
  let a := s.data.takeWhile isAsciiLetter
  let r1 := s.data.dropWhile isAsciiLetter
  let w := r1.takeWhile isWsChar
  let r2 := r1.dropWhile isWsChar
  !a.isEmpty && !w.isEmpty &&
    (match r2 with | c :: _ => isAsciiLetter c | [] => false)

def streetKeywords : List String :=
  ["street", "road", "avenue", "lane", "close", "way", "estate", "island",
   "mainland"]

def scanDigitThenKeyword (kws : List String) : List Char → Bool
  | [] => false
  | c :: t => (isDigitChar c && kws.any (fun k => infixOf k t))
      || scanDigitThenKeyword kws t

/-- `/\d+.*(?:street|road|avenue|lane|close|way|estate|island|mainland)/i` -/
def addrRe1 (s : String) : Bool :=
  scanDigitThenKeyword streetKeywords (jsLower s).data

def digitAfterWs (l : List Char) : Bool :=
  match l.dropWhile isWsChar with
  | c :: _ => isDigitChar c
  | [] => false

def scanNoNumber : List Char → Bool
  | [] => false
  | c :: t =>
      (if "no.".data.isPrefixOf (c :: t) then digitAfterWs ((c :: t).drop 3)
       else false)
      || (if "number".data.isPrefixOf (c :: t) then digitAfterWs ((c :: t).drop 6)
          else false)
      || scanNoNumber t

/-- `/(?:no\.|number)\s*\d+/i` -/
def addrRe2 (s : String) : Bool := scanNoNumber (jsLower s).data

def scanDigitSep : List Char → Bool
  | [] => false
  | c :: t =>
      (isDigitChar c &&
        (match t with
         | d :: _ => decide (d = ',') || isWsChar d
         | [] => false))
      || scanDigitSep t

/-- `/\d+[,\s]/` -/
def addrRe3 (s : String) : Bool := scanDigitSep s.data

/-- `/.{20,}/` (no newline can occur inside a message line) -/
def addrRe4 (s : String) : Bool := decide (20 ≤ s.data.length)

def foodKeywords : List String :=
  ["cake", "food", "pizza", "burger", "rice", "chicken", "beef", "fish",
   "drink", "water", "juice"]

/-- `/(?:cake|food|pizza|burger|rice|chicken|beef|fish|drink|water|juice)/i` -/
def itemRe1 (s : String) : Bool :=
  foodKeywords.any (fun k => infixOf k (jsLower s).data)

def unitKeywords : List String := ["pack", "piece", "bottle", "plate", "portion"]

def scanQtyUnit : List Char → Bool
  | [] => false
  | c :: t =>
      (isDigitChar c &&
        (let r := ((c :: t).dropWhile isDigitChar).dropWhile isWsChar
         unitKeywords.any (fun k => k.data.isPrefixOf r)))
      || scanQtyUnit t

/-- `/\d+\s*(?:pack|piece|bottle|plate|portion)/i` -/
def itemRe2 (s : String) : Bool := scanQtyUnit (jsLower s).data

def scanQtyMark : List Char → Bool
  | [] => false
  | c :: t =>
      (isDigitChar c &&
        (let r := (c :: t).dropWhile isDigitChar
         (match r with | d :: _ => isWsChar d | [] => false)
         || (match r.dropWhile isWsChar with
             | x :: _ => decide (x = 'x')
             | [] => false)))
      || scanQtyMark t

/-- `/(?:\d+\s*x\s*|\d+\s+)/` (case sensitive in the source) -/
def itemRe3 (s : String) : Bool := scanQtyMark s.data

/-! ### Date recognition (`isDateString`) -/

/-- Position matcher for `\d{1,2}SEP\d{1,2}SEP\d{4}`. -/
def matchDMYat (sep : Char) (l : List Char) : Bool :=
  let d1 := l.takeWhile isDigitChar
  let r1 := l.dropWhile isDigitChar
  decide (1 ≤ d1.length) && decide (d1.length ≤ 2) &&
    (match r1 with
     | c :: r2 =>
        decide (c = sep) &&
          (let d2 := r2.takeWhile isDigitChar
           let r3 := r2.dropWhile isDigitChar
           decide (1 ≤ d2.length) && decide (d2.length ≤ 2) &&
             (match r3 with
              | c2 :: r4 =>
                decide (c2 = sep) && decide (4 ≤ (r4.takeWhile isDigitChar).length)
              | [] => false))
     | [] => false)

/-- Position matcher for `\d{4}-\d{1,2}-\d{1,2}`. -/
def matchYMDat (l : List Char) : Bool :=
  let d1 := l.takeWhile isDigitChar
  let r1 := l.dropWhile isDigitChar
  decide (d1.length = 4) &&
    (match r1 with
     | c :: r2 =>
        decide (c = '-') &&
          (let d2 := r2.takeWhile isDigitChar
           let r3 := r2.dropWhile isDigitChar
           decide (1 ≤ d2.length) && decide (d2.length ≤ 2) &&
             (match r3 with
              | c2 :: r4 =>
                decide (c2 = '-') && decide (1 ≤ (r4.takeWhile isDigitChar).length)
              | [] => false))
     | [] => false)

def weekdayKeywords : List String :=
  ["monday", "tuesday", "wednesday", "thursday", "friday", "saturday", "sunday"]

/-- `OrderParser.isDateString`: the five date regexes of the source. -/
def isDateString (s : String) : Bool :=
  anySuffix (matchDMYat '/') s.data
  || anySuffix (matchDMYat '-') s.data
  || anySuffix matchYMDat s.data
  || infixOf "tomorrow" (jsLower s).data || infixOf "today" (jsLower s).data
  || weekdayKeywords.any (fun k => infixOf k (jsLower s).data)

/-! ### Date parsing (`parseDate`)

The source uses `moment()` for the current date and `moment(str, fmt, true)`
for strict format parsing; the ambient current date is passed in explicitly as
`today` and the strict parser is embedded directly. -/

structure CalDate where
  year : Nat
  month : Nat
  day : Nat
deriving DecidableEq

def isLeapYear (y : Nat) : Bool :=
  decide (y % 4 = 0) && (decide (y % 100 ≠ 0) || decide (y % 400 = 0))

def daysInMonth (y m : Nat) : Nat :=
  if m = 2 then (if isLeapYear y then 29 else 28)
  else if m = 4 ∨ m = 6 ∨ m = 9 ∨ m = 11 then 30
  else 31

def nextDay (d : CalDate) : CalDate :=
  if d.day < daysInMonth d.year d.month then ⟨d.year, d.month, d.day + 1⟩
  else if d.month < 12 then ⟨d.year, d.month + 1, 1⟩
  else ⟨d.year + 1, 1, 1⟩

def padNum (width n : Nat) : String :=
  let s := toString n
  if s.length ≥ width then s else ⟨List.replicate (width - s.length) '0' ++ s.data⟩

/-- `moment` display format `YYYY-MM-DD`. -/
def formatDate (d : CalDate) : String :=
  padNum 4 d.year ++ "-" ++ padNum 2 d.month ++ "-" ++ padNum 2 d.day

def validDate (d : CalDate) : Bool :=
  decide (1 ≤ d.month) && decide (d.month ≤ 12) && decide (1 ≤ d.day) &&
    decide (d.day ≤ daysInMonth d.year d.month)

/-- Numeric value of a digit string. -/
def digitsToNat (l : List Char) : Nat :=
  l.foldl (fun acc c => acc * 10 + (c.toNat - 48)) 0

/-- One numeric component of a strict format: digit count within bounds. -/
def dateComp (wmin wmax : Nat) (s : String) : Option Nat :=
  if wmin ≤ s.data.length ∧ s.data.length ≤ wmax ∧ s.data ≠ [] ∧
      s.data.all isDigitChar then
    some (digitsToNat s.data)
  else none

/-- Strict parse of a three-component numeric date with separator `sep`. -/
def parseFmt (sep : Char) (w1 w2 : Nat × Nat) (wy : Nat × Nat)
    (mk : Nat → Nat → Nat → CalDate) (s : String) : Option CalDate :=
  match splitStr sep s with
  | [a, b, c] =>
    match dateComp w1.1 w1.2 a, dateComp w2.1 w2.2 b, dateComp wy.1 wy.2 c with
    | some x, some y, some z => (some (mk x y z)).filter validDate
    | _, _, _ => none
  | _ => none

/-- `OrderParser.parseDate`: `tomorrow`/`today` relative to the ambient date,
otherwise the formats `DD/MM/YYYY`, `MM/DD/YYYY`, `YYYY-MM-DD`, `DD-MM-YYYY`
tried strictly in that order; no match yields `none`. -/
def parseDate (today : CalDate) (dateStr : String) : Option String :=
  if infixOf "tomorrow" (jsLower dateStr).data then some (formatDate (nextDay today))
  else if infixOf "today" (jsLower dateStr).data then some (formatDate today)
  else
    ((parseFmt '/' (1, 2) (1, 2) (4, 4) (fun d m y => ⟨y, m, d⟩) dateStr)
      <|> (parseFmt '/' (1, 2) (1, 2) (4, 4) (fun m d y => ⟨y, m, d⟩) dateStr)
      <|> (parseFmt '-' (4, 4) (1, 2) (1, 2) (fun y m d => CalDate.mk y m d) dateStr)
      <|> (parseFmt '-' (1, 2) (1, 2) (4, 4) (fun d m y => ⟨y, m, d⟩) dateStr)).map
        formatDate

/-! ## `src/services/OrderParser.js`: phone-candidate test -/

/-- `OrderParser.isPhoneNumber`: strip non-digits, require 10-15 digits, then
accept when the digits start with `0`, `234` or `1`, or number at least 10. -/
def isPhoneNumber (str : String) : Bool :=
  let cleaned := cleanedDigits str
  if cleaned.length < 10 ∨ cleaned.length > 15 then false
  else
    decide (cleaned.take 1 = ['0']) || decide (cleaned.take 3 = ['2', '3', '4']) ||
      decide (cleaned.take 1 = ['1']) || decide (cleaned.length ≥ 10)

/-! ## `src/services/OrderParser.js`: heuristic classifier -/

/-- JavaScript truthiness on an optional string field: `null`/`undefined` and
the empty string are falsy. -/
def truthyOpt : Option String → Option String
  | some s => if s = "" then none else some s
  | none => none

inductive FieldKind
  | name
  | address
  | items
deriving DecidableEq

def namePatterns : List (String → Bool) := [nameRe1, nameRe2]

def addressPatterns : List (String → Bool) := [addrRe1, addrRe2, addrRe3, addrRe4]

def itemPatterns : List (String → Bool) := [itemRe1, itemRe2, itemRe3]

/-- `OrderParser.calculatePatternScore`: one point per matching pattern. -/
def calculatePatternScore (text : String) (patterns : List (String → Bool)) : Nat :=
  (patterns.filter (fun p => p text)).length

/-- The per-line score record built inside `assignRemainingFields`, including
the derived `maxScore` and `bestType` (ties broken name > address > items). -/
structure ScoreInfo where
  line : String
  nameScore : Nat
  addressScore : Nat
  itemScore : Nat
  maxScore : Nat
  bestType : FieldKind

def mkScore (l : String) : ScoreInfo :=
  let n := calculatePatternScore l namePatterns
  let a := calculatePatternScore l addressPatterns
  let i := calculatePatternScore l itemPatterns
  { line := l, nameScore := n, addressScore := a, itemScore := i,
    maxScore := max n (max a i),
    bestType :=
      if n ≥ a ∧ n ≥ i then .name else if a ≥ i then .address else .items }

/-- Stable insertion for descending sort by `maxScore`: an element goes in
front of the first strictly smaller key, after all keys ≥ its own. -/
def insertDesc (x : ScoreInfo) : List ScoreInfo → List ScoreInfo
  | [] => [x]
  | y :: ys => if x.maxScore ≥ y.maxScore then x :: y :: ys else y :: insertDesc x ys

/-- The embedding of `sort((a, b) => b.maxScore - a.maxScore)`: JavaScript
`Array.prototype.sort` is stable, and the stable descending order by key is
unique, so insertion sort computes the same list. -/
def stableSortDesc : List ScoreInfo → List ScoreInfo
  | [] => []
  | x :: xs => insertDesc x (stableSortDesc xs)

/-- The three assignable fields of `assignRemainingFields`. -/
structure Remaining3 where
  customerName : Option String
  address : Option String
  items : Option String

/-- The `assigned` flag object of the source. -/
structure AssignedFlags where
  name : Bool
  address : Bool
  items : Bool

/-- One step of the best-match walk: a line is assigned to its `bestType`
only if that field is still free; otherwise it is skipped. -/
def walkStep (st : Remaining3 × AssignedFlags) (it : ScoreInfo) :
    Remaining3 × AssignedFlags :=
  match it.bestType with
  | .name =>
      if !st.2.name then
        ({ st.1 with customerName := some it.line }, { st.2 with name := true })
      else st
  | .address =>
      if !st.2.address then
        ({ st.1 with address := some it.line }, { st.2 with address := true })
      else st
  | .items =>
      if !st.2.items then
        ({ st.1 with items := some it.line }, { st.2 with items := true })
      else st

/-- The final fill of `assignRemainingFields`: any still-unassigned field
receives the next not-yet-used line, in priority order name → address →
items (`unassignedIndex` in the source advances only on a fill). -/
def fillMissing (r0 : Remaining3) (flags : AssignedFlags)
    (unassigned : List String) : Remaining3 :=
  let fill1 : Remaining3 × List String :=
    if !flags.name then
      match unassigned with
      | x :: rest => ({ r0 with customerName := some x }, rest)
      | [] => (r0, unassigned)
    else (r0, unassigned)
  let fill2 : Remaining3 × List String :=
    if !flags.address then
      match fill1.2 with
      | x :: rest => ({ fill1.1 with address := some x }, rest)
      | [] => (fill1.1, fill1.2)
    else fill1
  if !flags.items then
    match fill2.2 with
    | x :: _ => { fill2.1 with items := some x }
    | [] => fill2.1
  else fill2.1

/-- `OrderParser.assignRemainingFields`: score every line, walk the stable
descending order assigning best types, then fill still-unassigned fields in
priority order name → address → items from the lines not yet used (by string
value, as the source compares with `!==`). -/
def assignRemainingFields (lines : List String) : Remaining3 :=
  let scores := lines.map mkScore
  let sorted := stableSortDesc scores
  let walked := sorted.foldl walkStep (⟨none, none, none⟩, ⟨false, false, false⟩)
  let unassigned := lines.filter (fun l =>
    decide (some l ≠ walked.1.customerName) && decide (some l ≠ walked.1.address) &&
      decide (some l ≠ walked.1.items))
  fillMissing walked.1 walked.2 unassigned

/-- The partial field map produced by each extraction pass. -/
structure ParsedFields where
  customerName : Option String
  phoneNumber : Option String
  address : Option String
  items : Option String
  deliveryDate : Option String

/-- Remove the first element satisfying `p` (the source records its index in
`usedLines`). -/
def dropFirstSuchThat (p : α → Bool) : List α → List α
  | [] => []
  | a :: t => if p a then t else a :: dropFirstSuchThat p t

/-- The lines left for name/address/items after the first phone-candidate
line and every date line have been claimed (`usedLines` in the source). -/
def unlabeledPool (lines : List String) : List String :=
  (dropFirstSuchThat isPhoneNumber lines).filter (fun l => !isDateString l)

/-- The date lines claimed by the date pass (all but the phone line). -/
def unlabeledDates (lines : List String) : List String :=
  (dropFirstSuchThat isPhoneNumber lines).filter (fun l => isDateString l)

/-- The name/address/items branch ladder of `parseUnlabeledFormat` on the
remaining pool.  The `remainingLines.length === 3` positional branch sits
under `else if (remainingLines.length >= 2)` and is therefore unreachable —
it is kept here exactly as written. -/
def unlabeledAssign (pool : List String) : Remaining3 :=
  if pool.length ≥ 3 then
    let a := assignRemainingFields pool
    ⟨truthyOpt a.customerName, truthyOpt a.address, truthyOpt a.items⟩
  else if pool.length ≥ 2 then
    if pool.length = 3 then ⟨pool.get? 0, pool.get? 1, pool.get? 2⟩
    else if pool.length = 2 then
      let a := assignRemainingFields pool
      ⟨truthyOpt a.customerName, truthyOpt a.address, truthyOpt a.items⟩
    else ⟨none, none, none⟩
  else ⟨none, none, none⟩

/-- `OrderParser.parseUnlabeledFormat`: first phone candidate claimed for
`phoneNumber` (trimmed), every remaining date line claimed for
`deliveryDate` (the source loop assigns on each one, so the last date line
wins), then the pool goes through `unlabeledAssign`. -/
def parseUnlabeledFormat (today : CalDate) (lines : List String) : ParsedFields :=
  let phone := (lines.find? isPhoneNumber).map jsTrim
  let dd : Option String :=
    match (unlabeledDates lines).getLast? with
    | some dline => parseDate today dline
    | none => none
  let asg := unlabeledAssign (unlabeledPool lines)
  { customerName := asg.customerName, phoneNumber := phone,
    address := asg.address, items := asg.items, deliveryDate := dd }

/-! ## `src/services/OrderParser.js`: labeled extractor and `parseOrder` -/

/-- The per-line branch chain of `parseLabeledFormat`: `name:` prefix, then
`phone`+`:`, then `address:` prefix, then `item`+`:`, then a date line.
Splitting on `:` and taking index 1 keeps only the text up to the second
colon. -/
def labeledStep (today : CalDate) (r : ParsedFields) (line : String) : ParsedFields :=
  let lower := jsLower line
  if jsStartsWith lower "name:" then
    { r with customerName := some (jsTrim (strDrop line 5)) }
  else if strContains lower "phone" && strContains lower ":" then
    { r with phoneNumber := some (jsTrim ((splitStr ':' line).getD 1 "")) }
  else if jsStartsWith lower "address:" then
    { r with address := some (jsTrim (strDrop line 8)) }
  else if strContains lower "item" && strContains lower ":" then
    { r with items := some (jsTrim ((splitStr ':' line).getD 1 "")) }
  else if isDateString line then
    { r with deliveryDate := parseDate today line }
  else r

/-- `OrderParser.parseLabeledFormat`: fold of the branch chain over the
lines; a later matching line overwrites an earlier one. -/
def parseLabeledFormat (today : CalDate) (lines : List String) : ParsedFields :=
  lines.foldl (labeledStep today) ⟨none, none, none, none, none⟩

/-- The line preprocessing of `parseOrder`: trim the body, split on newlines,
trim each line, drop empties. -/
def messageLines (body : String) : List String :=
  ((splitStr '\n' (jsTrim body)).map jsTrim).filter (fun l => decide (l ≠ ""))

/-- The merge of `parseOrder`: labeled results win; the heuristic pass runs
only when a required field is still missing, and then also fills
`deliveryDate`.  JavaScript truthiness is applied on both sides. -/
def mergedFields (today : CalDate) (lines : List String) : ParsedFields :=
  let lab := parseLabeledFormat today lines
  let cn := truthyOpt lab.customerName
  let pn := truthyOpt lab.phoneNumber
  let ad := truthyOpt lab.address
  let it := truthyOpt lab.items
  let dd := truthyOpt lab.deliveryDate
  if cn.isNone ∨ pn.isNone ∨ ad.isNone ∨ it.isNone then
    let u := parseUnlabeledFormat today lines
    { customerName := cn <|> truthyOpt u.customerName,
      phoneNumber := pn <|> truthyOpt u.phoneNumber,
      address := ad <|> truthyOpt u.address,
      items := it <|> truthyOpt u.items,
      deliveryDate := dd <|> truthyOpt u.deliveryDate }
  else ⟨cn, pn, ad, it, dd⟩

/-- The order draft returned by a successful `parseOrder`. -/
structure ParsedOrder where
  customerName : String
  phoneNumber : String
  address : String
  items : String
  deliveryDate : Option String
  addedBy : String

/-- `OrderParser.parseOrder`: reject fewer than 3 non-empty lines, run the
labeled pass, fill gaps with the heuristic pass, reject when a required field
is still missing, otherwise return the trimmed draft.  The function is total:
the source's outer `try`/`catch` can never be reached by a throw. -/
def parseOrder (today : CalDate) (messageBody senderName : String) :
    Option ParsedOrder :=
  let lines := messageLines messageBody
  if lines.length < 3 then none
  else
    let m := mergedFields today lines
    match m.customerName, m.phoneNumber, m.address, m.items with
    | some cn, some pn, some ad, some it =>
        some ⟨jsTrim cn, jsTrim pn, jsTrim ad, jsTrim it, m.deliveryDate, senderName⟩
    | _, _, _, _ => none

/-! ## `src/services/OrderService.js`: the persistence-backed lifecycle

The relational store is modelled as an explicit `Store` value; each SQL query
of the source becomes one atomic operation on it.  A boolean flag per write
models "this query throws at runtime"; the embedding then follows the exact
`try`/`catch` structure of the source.  Reads are modelled as succeeding; the
claims under verification only concern write failures. -/

/-- A row of the `orders` table.  The schema declares
`status VARCHAR(20) DEFAULT 'pending'`, and the insert of `createOrder` does
not mention `status`, so fresh rows are `pending`. -/
structure DbOrder where
  orderId : String
  customerName : String
  phoneNumber : String
  address : String
  items : String
  deliveryDate : Option String
  status : String
  addedBy : String
  deliveryPerson : Option String
  deliveredAt : Option Nat
  cancelledAt : Option Nat
deriving DecidableEq

/-- A row of the `order_history` table. -/
structure HistoryEntry where
  orderId : String
  status : String
  changedBy : String
  notes : String
deriving DecidableEq

/-- The persistence store: the two tables, rows in insertion order. -/
structure Store where
  orders : List DbOrder
  history : List HistoryEntry
deriving DecidableEq

/-- The typed errors a lifecycle call can propagate. -/
inductive DbError
  | notFound (orderId : String)
  | persistenceFailure
deriving DecidableEq

/-- `OrderService.addOrderHistory`: insert a history row; a query failure is
caught and only logged — the caller never sees an error and the entry is
simply missing. -/
def addOrderHistory (st : Store) (orderId status changedBy notes : String)
    (queryFails : Bool) : Store :=
  if queryFails then st
  else { st with history := st.history ++ [⟨orderId, status, changedBy, notes⟩] }

/-- The row `createOrder` inserts for a parsed draft (phone normalized at
creation time, status from the schema default). -/
def mkDbOrder (orderData : ParsedOrder) (orderId : String) : DbOrder :=
  { orderId := orderId, customerName := orderData.customerName,
    phoneNumber := formatPhoneNumber orderData.phoneNumber,
    address := orderData.address, items := orderData.items,
    deliveryDate := orderData.deliveryDate, status := "pending",
    addedBy := orderData.addedBy, deliveryPerson := none,
    deliveredAt := none, cancelledAt := none }

/-- `OrderService.createOrder`: insert the order row (a throwing insert —
including a violation of the unique constraint on `order_id` — propagates as
an error), then append the creation history entry through
`addOrderHistory`. -/
def createOrder (st : Store) (orderData : ParsedOrder) (orderId : String)
    (insertFails historyFails : Bool) : Except DbError DbOrder × Store :=
  if insertFails || st.orders.any (fun o => o.orderId == orderId) then
    (.error .persistenceFailure, st)
  else
    let o := mkDbOrder orderData orderId
    let st1 : Store := { st with orders := st.orders ++ [o] }
    let st2 := addOrderHistory st1 orderId "pending" orderData.addedBy
      "Order created" historyFails
    (.ok o, st2)

/-- The `SET` clause of `updateOrderStatus` on one row: `delivered` also sets
`delivery_person` and `delivered_at`; `cancelled` also sets `cancelled_at`;
any other status sets `delivery_person` only. -/
def applyStatusFields (status : String) (deliveryPerson : Option String)
    (now : Nat) (o : DbOrder) : DbOrder :=
  if status == "delivered" then
    { o with status := status, deliveryPerson := deliveryPerson,
             deliveredAt := some now }
  else if status == "cancelled" then
    { o with status := status, cancelledAt := some now }
  else
    { o with status := status, deliveryPerson := deliveryPerson }

/-- The effect of the `UPDATE ... WHERE order_id = $n` row filter. -/
def updRow (orderId status : String) (deliveryPerson : Option String)
    (now : Nat) (r : DbOrder) : DbOrder :=
  if r.orderId == orderId then applyStatusFields status deliveryPerson now r
  else r

/-- `OrderService.updateOrderStatus`: one unconditional `UPDATE` on the
order id — the `WHERE` clause has no status guard — then the history append
(whose failure `addOrderHistory` swallows).  A throwing update propagates; an
update matching no row throws the not-found error. -/
def updateOrderStatus (st : Store) (orderId status changedBy : String)
    (deliveryPerson : Option String) (now : Nat)
    (updateFails historyFails : Bool) : Except DbError DbOrder × Store :=
  if updateFails then (.error .persistenceFailure, st)
  else
    match st.orders.find? (fun o => o.orderId == orderId) with
    | none => (.error (.notFound orderId), st)
    | some o =>
      let st1 : Store :=
        { st with orders := st.orders.map (updRow orderId status deliveryPerson now) }
      let st2 := addOrderHistory st1 orderId status changedBy
        ("Status changed to " ++ status) historyFails
      (.ok (applyStatusFields status deliveryPerson now o), st2)

/-! ## `src/services/WhatsAppService.js`: transition handlers -/

/-- The outcome a transition handler reports back to the delivery group. -/
inductive Outcome
  | notFound
  | alreadyDelivered
  | alreadyCancelled
  | invalidTransition
  | success
  | failure
deriving DecidableEq

/-- `WhatsAppService.markOrderAsDelivered`: read the order; reply (without
mutating) when it is missing, already delivered, or cancelled; otherwise
update the status to `delivered`.  An error thrown by the update is caught
and reported as a failure message. -/
def markOrderAsDelivered (st : Store) (orderId deliveryPerson : String)
    (now : Nat) (updateFails historyFails : Bool) : Outcome × Store :=
  match st.orders.find? (fun o => o.orderId == orderId) with
  | none => (.notFound, st)
  | some o =>
    if o.status == "delivered" then (.alreadyDelivered, st)
    else if o.status == "cancelled" then (.invalidTransition, st)
    else
      match updateOrderStatus st orderId "delivered" deliveryPerson
          (some deliveryPerson) now updateFails historyFails with
      | (.ok _, st') => (.success, st')
      | (.error _, st') => (.failure, st')

/-- `WhatsAppService.cancelOrder`, symmetric to `markOrderAsDelivered`. -/
def cancelOrder (st : Store) (orderId cancelledBy : String)
    (now : Nat) (updateFails historyFails : Bool) : Outcome × Store :=
  match st.orders.find? (fun o => o.orderId == orderId) with
  | none => (.notFound, st)
  | some o =>
    if o.status == "cancelled" then (.alreadyCancelled, st)
    else if o.status == "delivered" then (.invalidTransition, st)
    else
      match updateOrderStatus st orderId "cancelled" cancelledBy
          none now updateFails historyFails with
      | (.ok _, st') => (.success, st')
      | (.error _, st') => (.failure, st')

/-- The status of an order in the store, if it exists. -/
def statusOf (st : Store) (orderId : String) : Option String :=
  (st.orders.find? (fun o => o.orderId == orderId)).map (fun o => o.status)

/-! ## Transition requests: sequential and interleaved execution -/

inductive ReqKind
  | deliver
  | cancel
deriving DecidableEq

/-- One administrative transition request. -/
structure Req where
  kind : ReqKind
  orderId : String
  actor : String
deriving DecidableEq

/-- Run one request to completion (no other request interleaves), with no
persistence failures. -/
def execReq (now : Nat) (st : Store) (r : Req) : Outcome × Store :=
  match r.kind with
  | .deliver => markOrderAsDelivered st r.orderId r.actor now false false
  | .cancel => cancelOrder st r.orderId r.actor now false false

/-- Run a list of requests sequentially. -/
def runSeq (now : Nat) (st : Store) : List Req → List Outcome × Store
  | [] => ([], st)
  | r :: rs =>
    let s := execReq now st r
    let rest := runSeq now s.2 rs
    (s.1 :: rest.1, rest.2)

/-- How many requests for `oid` reported success. -/
def successCount (oid : String) : List Req → List Outcome → Nat
  | r :: rs, o :: os =>
    (if r.orderId == oid && o == Outcome.success then 1 else 0)
      + successCount oid rs os
  | _, _ => 0

/-- A request in flight: before its read, between its read and its write
(guards passed), or finished with an outcome.  The read (`getOrderById`) and
the write (`updateOrderStatus`) are separate awaited store operations in the
source, so another request can run between them. -/
inductive ThreadState
  | ready
  | willWrite
  | done (o : Outcome)
deriving DecidableEq

/-- One atomic step of a request under the interleaving semantics. -/
def stepThread (now : Nat) (r : Req) (st : Store) (t : ThreadState) :
    ThreadState × Store :=
  match t with
  | .ready =>
    (match st.orders.find? (fun o => o.orderId == r.orderId) with
     | none => (.done .notFound, st)
     | some o =>
       match r.kind with
       | .deliver =>
         if o.status == "delivered" then (.done .alreadyDelivered, st)
         else if o.status == "cancelled" then (.done .invalidTransition, st)
         else (.willWrite, st)
       | .cancel =>
         if o.status == "cancelled" then (.done .alreadyCancelled, st)
         else if o.status == "delivered" then (.done .invalidTransition, st)
         else (.willWrite, st))
  | .willWrite =>
    (match r.kind with
     | .deliver =>
       match updateOrderStatus st r.orderId "delivered" r.actor (some r.actor)
           now false false with
       | (.ok _, st') => (.done .success, st')
       | (.error _, st') => (.done .failure, st')
     | .cancel =>
       match updateOrderStatus st r.orderId "cancelled" r.actor none
           now false false with
       | (.ok _, st') => (.done .success, st')
       | (.error _, st') => (.done .failure, st'))
  | .done o => (.done o, st)

/-- Run a schedule: at each tick, the named request performs its next atomic
step. -/
def runSchedule (now : Nat) (reqs : List Req) :
    List Nat → Store → List ThreadState → List ThreadState × Store
  | [], st, ts => (ts, st)
  | i :: rest, st, ts =>
    match reqs.get? i, ts.get? i with
    | some r, some t =>
      let s := stepThread now r st t
      runSchedule now reqs rest s.2 (ts.set i s.1)
    | _, _ => runSchedule now reqs rest st ts

/-! ## `src/services/WhatsAppService.js`: command interpreter -/

/-- The administrative intents of `handleDeliveryGroupMessage`. -/
inductive Command
  | deliverByReply (orderId : String)
  | cancelByReply (orderId : String)
  | deliverById (orderId : String)
  | cancelById (orderId : String)
  | dailyReport
  | pendingReport
  | weeklyReport
  | monthlyReport
  | helpCmd
  | noop
deriving DecidableEq

/-- JavaScript `\w`. -/
def isWordChar (c : Char) : Bool := c.isAlphanum || decide (c = '_')

/-- Scanner of `extractOrderIdFromMessage`'s regex `/Order #(\w+)/`: the
first position where the case-sensitive literal is followed by at least one
word character wins; the capture is the maximal word-character run. -/
def scanOrderId : List Char → Option String
  | [] => none
  | c :: t =>
    if "Order #".data.isPrefixOf (c :: t) then
      match ((c :: t).drop 7).takeWhile isWordChar with
      | [] => scanOrderId t
      | l => some ⟨l⟩
    else scanOrderId t

/-- `WhatsAppService.extractOrderIdFromMessage`. -/
def extractOrderIdFromMessage (messageBody : String) : Option String :=
  scanOrderId messageBody.data

/-- The embedding of `String.prototype.replace` with a plain-string pattern:
only the first occurrence is replaced. -/
def replaceFirstL (pat repl : List Char) : List Char → List Char
  | [] => []
  | c :: t =>
    if pat.isPrefixOf (c :: t) then repl ++ (c :: t).drop pat.length
    else c :: replaceFirstL pat repl t

def replaceFirst (s pat repl : String) : String :=
  ⟨replaceFirstL pat.data repl.data s.data⟩

/-- The dispatch chain of `handleDeliveryGroupMessage`: the body is
lowercased and trimmed before any branch is tried, so the id extracted after
`done #` / `cancel #` is lowercased too.  A reply whose quoted message yields
no id, and any unrecognized text, is a no-op. -/
def resolveCommand (hasQuotedMsg : Bool) (quotedBody body : String) : Command :=
  let messageBody := jsTrim (jsLower body)
  if hasQuotedMsg && messageBody == "done" then
    match extractOrderIdFromMessage quotedBody with
    | some oid => .deliverByReply oid
    | none => .noop
  else if hasQuotedMsg && messageBody == "cancel" then
    match extractOrderIdFromMessage quotedBody with
    | some oid => .cancelByReply oid
    | none => .noop
  else if jsStartsWith messageBody "done #" then
    .deliverById (jsTrim (replaceFirst messageBody "done #" ""))
  else if jsStartsWith messageBody "cancel #" then
    .cancelById (jsTrim (replaceFirst messageBody "cancel #" ""))
  else if messageBody == "/daily" then .dailyReport
  else if messageBody == "/pending" then .pendingReport
  else if messageBody == "/weekly" then .weeklyReport
  else if messageBody == "/monthly" then .monthlyReport
  else if messageBody == "/help" then .helpCmd
  else .noop

/-- The full text after the first colon of a line (what the claim says the
extractor assigns). -/
def afterFirstColon (s : String) : String :=
  ⟨(s.data.dropWhile (fun c => !decide (c = ':'))).drop 1⟩

/-! ## Concrete fixtures used by witnesses and counterexamples -/

/-- A parsed draft used as a concrete test fixture. -/
def sampleDraft : ParsedOrder :=
  ⟨"Amaka Obi", "08012345678", "12 Allen Avenue, Ikeja", "2x Jollof rice",
    none, "Wes"⟩

/-- A pending persisted order used as a concrete test fixture. -/
def pendingOrder : DbOrder :=
  { orderId := "ORD20240115042", customerName := "Amaka Obi",
    phoneNumber := "+2348012345678", address := "12 Allen Avenue, Ikeja",
    items := "2x Jollof rice", deliveryDate := none, status := "pending",
    addedBy := "Wes", deliveryPerson := none, deliveredAt := none,
    cancelledAt := none }

/-- A store holding exactly the pending fixture order. -/
def pendingStore : Store := ⟨[pendingOrder], []⟩

/-- A deliver and a cancel request racing on the fixture order. -/
def raceReqs : List Req :=
  [⟨.deliver, "ORD20240115042", "alice"⟩, ⟨.cancel, "ORD20240115042", "bob"⟩]

/-- The fixture order after an administrative cancellation. -/
def cancelledOrder : DbOrder := { pendingOrder with status := "cancelled" }

/-- A store holding exactly the cancelled fixture order. -/
def cancelledStore : Store := ⟨[cancelledOrder], []⟩

/-! ### `trim` facts -/

theorem dropWhile_dropWhile (p : α → Bool) (l : List α) :
    (l.dropWhile p).dropWhile p = l.dropWhile p := by
  induction l with
  | nil => rfl
  | cons a t ih =>
    by_cases h : p a
    · simpa [List.dropWhile, h] using ih
    · simp [List.dropWhile, h]

theorem head_dropWhile_false (p : α → Bool) (l : List α) (a : α) (t : List α)
    (h : l.dropWhile p = a :: t) : p a = false := by
  induction l with
  | nil => simp at h
  | cons b r ih =>
    by_cases hb : p b
    · exact ih (by simpa [List.dropWhile, hb] using h)
    · rw [List.dropWhile_cons_of_neg (by simpa using hb)] at h
      cases h
      simpa using hb

theorem dropWhile_eq_self_of_head (p : α → Bool) (l : List α)
    (h : ∀ a t, l = a :: t → p a = false) : l.dropWhile p = l := by
  cases l with
  | nil => rfl
  | cons a t => exact List.dropWhile_cons_of_neg (by simpa using h a t rfl)

/-- Trimming is idempotent: the once-trimmed list has no whitespace at either
end, so trimming again changes nothing. -/
theorem trimL_idem (l : List Char) : trimL (trimL l) = trimL l := by
  unfold trimL
  set l1 := l.dropWhile isWsChar with hl1
  set t := (l1.reverse.dropWhile isWsChar).reverse with ht
  have hpre : t <+: l1 := by
    rw [ht]
    have hsuf : l1.reverse.dropWhile isWsChar <:+ l1.reverse := List.dropWhile_suffix _
    have := List.reverse_prefix.mpr (by simpa using hsuf)
    simpa using this
  have hfront : t.dropWhile isWsChar = t := by
    apply dropWhile_eq_self_of_head
    intro a s hts
    obtain ⟨r, hr⟩ := hpre
    rw [hts] at hr
    cases hl : l1 with
    | nil => rw [hl] at hr; simp at hr
    | cons b m =>
      rw [hl] at hr
      have hab : a = b := by
        have := congrArg List.head? hr
        simpa using this
      have hb : isWsChar b = false := by
        refine head_dropWhile_false isWsChar l b m ?_
        rw [← hl1]; exact hl
      rw [hab]; exact hb
  have hback : t.reverse.dropWhile isWsChar = t.reverse := by
    rw [ht]
    simp [dropWhile_dropWhile]
  rw [hfront, hback]
  simp

theorem jsTrim_idem (s : String) : jsTrim (jsTrim s) = jsTrim s := by
  simp [jsTrim, trimL_idem]

theorem jsTrim_ne_empty (s : String) (h : jsTrim s = s) (hne : s ≠ "") :
    jsTrim s ≠ "" := by
  rw [h]; exact hne

/-! ## Phone-normalization lemmas -/

theorem formatPhoneNumber_eq_spec (s : String) :
    formatPhoneNumber s = normalizePhoneSpec s := by
  unfold formatPhoneNumber normalizePhoneSpec
  set c := cleanedDigits s with hc
  by_cases h0 : c.take 1 = ['0']
  · simp only [h0, if_pos]
    have : ('2' :: '3' :: '4' :: c.drop 1).take 3 = ['2', '3', '4'] := by
      simp [List.take]
    simp [this]
  · by_cases h234 : c.take 3 = ['2', '3', '4']
    · simp [h0, h234]
    · have : ('2' :: '3' :: '4' :: c).take 3 = ['2', '3', '4'] := by simp [List.take]
      simp [h0, h234]

theorem cleanedDigits_plus (d : List Char) (hd : ∀ c ∈ d, isDigitChar c = true) :
    cleanedDigits ⟨'+' :: d⟩ = d := by
  unfold cleanedDigits
  have hplus : isDigitChar '+' = false := by decide
  show ('+' :: d).filter isDigitChar = d
  rw [List.filter_cons_of_neg (by simp [hplus])]
  exact List.filter_eq_self.mpr hd

theorem cleanedDigits_all_digits (s : String) :
    ∀ c ∈ cleanedDigits s, isDigitChar c = true := by
  intro c hc
  exact List.of_mem_filter hc

/-- A string of the shape `+` followed by digits starting `234` is a fixed
point of `formatPhoneNumber`. -/
theorem formatPhoneNumber_fixed (d : List Char)
    (hd : ∀ c ∈ d, isDigitChar c = true) (h234 : d.take 3 = ['2', '3', '4']) :
    formatPhoneNumber ⟨'+' :: d⟩ = ⟨'+' :: d⟩ := by
  unfold formatPhoneNumber
  rw [cleanedDigits_plus d hd]
  have hshape : d = '2' :: '3' :: '4' :: d.drop 3 := by
    have h := (List.take_append_drop 3 d).symm
    rw [h234] at h
    simpa using h
  have htake1 : d.take 1 = ['2'] := by rw [hshape]; rfl
  simp [htake1, h234]

/-- Every output of `formatPhoneNumber` is `+` followed by digits starting
`234`. -/
theorem formatPhoneNumber_shape (s : String) :
    ∃ d : List Char, formatPhoneNumber s = ⟨'+' :: d⟩ ∧
      (∀ c ∈ d, isDigitChar c = true) ∧ d.take 3 = ['2', '3', '4'] := by
  have hdig := cleanedDigits_all_digits s
  unfold formatPhoneNumber
  set c := cleanedDigits s with hc
  by_cases h0 : c.take 1 = ['0']
  · refine ⟨'2' :: '3' :: '4' :: c.drop 1, by simp [h0], ?_, rfl⟩
    intro x hx
    simp only [List.mem_cons] at hx
    rcases hx with rfl | rfl | rfl | hx
    · decide
    · decide
    · decide
    · exact hdig x (List.mem_of_mem_drop hx)
  · by_cases h234 : c.take 3 = ['2', '3', '4']
    · exact ⟨c, by simp [h0, h234], hdig, h234⟩
    · refine ⟨'2' :: '3' :: '4' :: c, by simp [h0, h234], ?_, rfl⟩
      intro x hx
      simp only [List.mem_cons] at hx
      rcases hx with rfl | rfl | rfl | hx
      · decide
      · decide
      · decide
      · exact hdig x hx

/-- `formatPhoneNumber` is idempotent on every input. -/
theorem formatPhoneNumber_idem (s : String) :
    formatPhoneNumber (formatPhoneNumber s) = formatPhoneNumber s := by
  obtain ⟨d, heq, hd, h234⟩ := formatPhoneNumber_shape s
  rw [heq, formatPhoneNumber_fixed d hd h234]

/-! ## Claims on the heuristic classifier and labeled extractor -/

/-- **C1 counterexample.** A message whose unlabeled pool holds exactly the 3
lines `"1 chicken"`, `"John Doe"`, `"12 Allen Avenue, Ikeja"` does not get a
positional assignment: the extraction assigns `customerName := "John Doe"`
(the second line), because the `length >= 3` scoring branch shadows the
positional `length === 3` branch. -/
theorem claim_C1_counterexample :
    unlabeledPool ["1 chicken", "John Doe", "12 Allen Avenue, Ikeja"]
        = ["1 chicken", "John Doe", "12 Allen Avenue, Ikeja"] ∧
    (parseUnlabeledFormat ⟨2024, 1, 15⟩
        ["1 chicken", "John Doe", "12 Allen Avenue, Ikeja"]).customerName
        = some "John Doe" ∧
    ("John Doe" : String) ≠ "1 chicken" :=
  ⟨rfl, rfl, by decide⟩

/-- **C1 (amended).** When exactly 3 unlabeled lines remain after phone and
date removal, the heuristic classifier routes them through the scoring
procedure `assignRemainingFields` — the same path as for more than 3 lines —
rather than assigning them positionally; the positional `=== 3` branch of the
source is unreachable. -/
theorem claim_C1 (today : CalDate) (lines : List String)
    (h : (unlabeledPool lines).length = 3) :
    (parseUnlabeledFormat today lines).customerName
        = truthyOpt (assignRemainingFields (unlabeledPool lines)).customerName ∧
    (parseUnlabeledFormat today lines).address
        = truthyOpt (assignRemainingFields (unlabeledPool lines)).address ∧
    (parseUnlabeledFormat today lines).items
        = truthyOpt (assignRemainingFields (unlabeledPool lines)).items := by
  have h3 : (unlabeledPool lines).length ≥ 3 := by omega
  simp [parseUnlabeledFormat, unlabeledAssign, if_pos h3]

/-- Witness for C1 at a concrete 3-line pool. -/
theorem claim_C1_witness :
    (unlabeledPool ["Chioma Eze", "5 Marina Road, Lagos Island", "2 plates of rice"]).length = 3 ∧
    ((parseUnlabeledFormat ⟨2024, 1, 15⟩
        ["Chioma Eze", "5 Marina Road, Lagos Island", "2 plates of rice"]).customerName
      = truthyOpt (assignRemainingFields (unlabeledPool
          ["Chioma Eze", "5 Marina Road, Lagos Island", "2 plates of rice"])).customerName ∧
     (parseUnlabeledFormat ⟨2024, 1, 15⟩
        ["Chioma Eze", "5 Marina Road, Lagos Island", "2 plates of rice"]).address
      = truthyOpt (assignRemainingFields (unlabeledPool
          ["Chioma Eze", "5 Marina Road, Lagos Island", "2 plates of rice"])).address ∧
     (parseUnlabeledFormat ⟨2024, 1, 15⟩
        ["Chioma Eze", "5 Marina Road, Lagos Island", "2 plates of rice"]).items
      = truthyOpt (assignRemainingFields (unlabeledPool
          ["Chioma Eze", "5 Marina Road, Lagos Island", "2 plates of rice"])).items) :=
  ⟨by rfl, claim_C1 ⟨2024, 1, 15⟩ _ (by rfl)⟩

/-- **C7 counterexample.** On the line `"Phone: 0801: ext 2"`, which contains
two colons, the extractor assigns only the text between the first and second
colon (`"0801"`), not the entire text after the first colon
(`"0801: ext 2"`). -/
theorem claim_C7_counterexample :
    (parseLabeledFormat ⟨2024, 1, 15⟩ ["Phone: 0801: ext 2"]).phoneNumber
        = some "0801" ∧
    jsTrim (afterFirstColon "Phone: 0801: ext 2") = "0801: ext 2" ∧
    ("0801" : String) ≠ "0801: ext 2" :=
  ⟨rfl, rfl, by decide⟩

/-- **C7 (amended).** For a line that reaches the `phone`+`:` branch (it does
not start with `name:`), the assigned phone number is `split(':')[1]`
trimmed — the segment between the first and second colons, which equals the
whole remainder only when the line has a single colon; likewise a line
reaching the `item`+`:` branch gets `split(':')[1]` trimmed as items. -/
theorem claim_C7 (today : CalDate) (line : String) :
    (jsStartsWith (jsLower line) "name:" = false →
     strContains (jsLower line) "phone" = true →
     strContains (jsLower line) ":" = true →
     (parseLabeledFormat today [line]).phoneNumber
        = some (jsTrim ((splitStr ':' line).getD 1 ""))) ∧
    (jsStartsWith (jsLower line) "name:" = false →
     strContains (jsLower line) "phone" = false →
     jsStartsWith (jsLower line) "address:" = false →
     strContains (jsLower line) "item" = true →
     strContains (jsLower line) ":" = true →
     (parseLabeledFormat today [line]).items
        = some (jsTrim ((splitStr ':' line).getD 1 ""))) := by
  constructor
  · intro h1 h2 h3
    simp [parseLabeledFormat, labeledStep, h1, h2, h3]
  · intro h1 h2 h3 h4 h5
    simp [parseLabeledFormat, labeledStep, h1, h2, h3, h4, h5]

/-- Witness for C7 on a phone line and an items line. -/
theorem claim_C7_witness :
    (parseLabeledFormat ⟨2024, 1, 15⟩ ["Phone: 08012345678"]).phoneNumber
        = some (jsTrim ((splitStr ':' "Phone: 08012345678").getD 1 "")) ∧
    (parseLabeledFormat ⟨2024, 1, 15⟩ ["Items: 2x Jollof rice"]).items
        = some (jsTrim ((splitStr ':' "Items: 2x Jollof rice").getD 1 "")) :=
  ⟨(claim_C7 ⟨2024, 1, 15⟩ "Phone: 08012345678").1 (by rfl) (by rfl) (by rfl),
   (claim_C7 ⟨2024, 1, 15⟩ "Items: 2x Jollof rice").2 (by rfl) (by rfl) (by rfl)
     (by rfl) (by rfl)⟩

/-! ## Supporting lemmas for the `parseOrder` claim (C6) -/

theorem truthyOpt_some {o : Option String} {v : String}
    (h : truthyOpt o = some v) : o = some v ∧ v ≠ "" := by
  cases o with
  | none => simp [truthyOpt] at h
  | some s =>
    by_cases hs : s = ""
    · simp [truthyOpt, hs] at h
    · simp [truthyOpt, hs] at h
      exact ⟨by rw [h], by rw [← h]; exact hs⟩

theorem orElse_some {a b : Option String} {v : String}
    (h : (a <|> b) = some v) : a = some v ∨ b = some v := by
  cases a with
  | none => right; simpa using h
  | some x => left; simpa using h

theorem mem_insertDesc {y x : ScoreInfo} {l : List ScoreInfo}
    (h : y ∈ insertDesc x l) : y = x ∨ y ∈ l := by
  induction l with
  | nil => simpa [insertDesc] using h
  | cons a t ih =>
    unfold insertDesc at h
    split at h
    · simpa using h
    · rcases List.mem_cons.mp h with h | h
      · right; simp [h]
      · rcases ih h with h | h
        · left; exact h
        · right; simp [h]

theorem mem_stableSortDesc {y : ScoreInfo} {l : List ScoreInfo}
    (h : y ∈ stableSortDesc l) : y ∈ l := by
  induction l with
  | nil => simp [stableSortDesc] at h
  | cons a t ih =>
    unfold stableSortDesc at h
    rcases mem_insertDesc h with h | h
    · simp [h]
    · simp [ih h]

theorem walkStep_mem (ls : List String) (st : Remaining3 × AssignedFlags)
    (it : ScoreInfo) (hit : it.line ∈ ls)
    (h : (∀ v, st.1.customerName = some v → v ∈ ls) ∧
         (∀ v, st.1.address = some v → v ∈ ls) ∧
         (∀ v, st.1.items = some v → v ∈ ls)) :
    (∀ v, (walkStep st it).1.customerName = some v → v ∈ ls) ∧
    (∀ v, (walkStep st it).1.address = some v → v ∈ ls) ∧
    (∀ v, (walkStep st it).1.items = some v → v ∈ ls) := by
  obtain ⟨h1, h2, h3⟩ := h
  refine ⟨?_, ?_, ?_⟩ <;> intro v hv <;> unfold walkStep at hv <;>
    (split at hv <;> split at hv) <;>
    first
      | (exact h1 v hv)
      | (exact h2 v hv)
      | (exact h3 v hv)
      | (exact Option.some_inj.mp hv ▸ hit)

theorem walk_fold_mem (ls : List String) (sl : List ScoreInfo) :
    ∀ st : Remaining3 × AssignedFlags,
      (∀ it ∈ sl, it.line ∈ ls) →
      ((∀ v, st.1.customerName = some v → v ∈ ls) ∧
       (∀ v, st.1.address = some v → v ∈ ls) ∧
       (∀ v, st.1.items = some v → v ∈ ls)) →
      ((∀ v, (sl.foldl walkStep st).1.customerName = some v → v ∈ ls) ∧
       (∀ v, (sl.foldl walkStep st).1.address = some v → v ∈ ls) ∧
       (∀ v, (sl.foldl walkStep st).1.items = some v → v ∈ ls)) := by
  induction sl with
  | nil => intro st _ h; exact h
  | cons it t ih =>
    intro st hmem h
    rw [List.foldl_cons]
    refine ih _ (fun j hj => hmem j (List.mem_cons_of_mem _ hj)) ?_
    exact walkStep_mem ls st it (hmem it (List.mem_cons_self _ _)) h

theorem fillMissing_mem (r0 : Remaining3) (flags : AssignedFlags)
    (u : List String) :
    (∀ v, (fillMissing r0 flags u).customerName = some v →
        r0.customerName = some v ∨ v ∈ u) ∧
    (∀ v, (fillMissing r0 flags u).address = some v →
        r0.address = some v ∨ v ∈ u) ∧
    (∀ v, (fillMissing r0 flags u).items = some v →
        r0.items = some v ∨ v ∈ u) := by
  rcases flags with ⟨fn, fa, fi⟩
  cases fn <;> cases fa <;> cases fi <;>
    rcases u with _ | ⟨x, _ | ⟨y, _ | ⟨z, u3⟩⟩⟩ <;>
    refine ⟨?_, ?_, ?_⟩ <;> intro v hv <;>
    simp only [fillMissing, Bool.not_true, Bool.not_false, if_true, if_false,
      ite_true, ite_false] at hv <;>
    first
      | (left; exact hv)
      | (cases hv; right; simp)

theorem assignRemainingFields_mem (ls : List String) :
    (∀ v, (assignRemainingFields ls).customerName = some v → v ∈ ls) ∧
    (∀ v, (assignRemainingFields ls).address = some v → v ∈ ls) ∧
    (∀ v, (assignRemainingFields ls).items = some v → v ∈ ls) := by
  have hsorted : ∀ it ∈ stableSortDesc (ls.map mkScore), it.line ∈ ls := by
    intro it hit
    have := mem_stableSortDesc hit
    rw [List.mem_map] at this
    obtain ⟨l, hl, rfl⟩ := this
    exact hl
  have hwalk := walk_fold_mem ls (stableSortDesc (ls.map mkScore))
    (⟨none, none, none⟩, ⟨false, false, false⟩) hsorted
    (by refine ⟨?_, ?_, ?_⟩ <;> intro v hv <;> simp at hv)
  have hfill := fillMissing_mem
    ((stableSortDesc (ls.map mkScore)).foldl walkStep
      (⟨none, none, none⟩, ⟨false, false, false⟩)).1
    ((stableSortDesc (ls.map mkScore)).foldl walkStep
      (⟨none, none, none⟩, ⟨false, false, false⟩)).2
    (ls.filter (fun l =>
      decide (some l ≠ ((stableSortDesc (ls.map mkScore)).foldl walkStep
        (⟨none, none, none⟩, ⟨false, false, false⟩)).1.customerName) &&
      decide (some l ≠ ((stableSortDesc (ls.map mkScore)).foldl walkStep
        (⟨none, none, none⟩, ⟨false, false, false⟩)).1.address) &&
      decide (some l ≠ ((stableSortDesc (ls.map mkScore)).foldl walkStep
        (⟨none, none, none⟩, ⟨false, false, false⟩)).1.items)))
  refine ⟨?_, ?_, ?_⟩ <;> intro v hv
  · rcases hfill.1 v hv with h | h
    · exact hwalk.1 v h
    · exact List.mem_of_mem_filter h
  · rcases hfill.2.1 v hv with h | h
    · exact hwalk.2.1 v h
    · exact List.mem_of_mem_filter h
  · rcases hfill.2.2 v hv with h | h
    · exact hwalk.2.2 v h
    · exact List.mem_of_mem_filter h

theorem unlabeledAssign_mem (pool : List String) :
    (∀ v, (unlabeledAssign pool).customerName = some v → v ∈ pool) ∧
    (∀ v, (unlabeledAssign pool).address = some v → v ∈ pool) ∧
    (∀ v, (unlabeledAssign pool).items = some v → v ∈ pool) := by
  have hassign := assignRemainingFields_mem pool
  refine ⟨?_, ?_, ?_⟩ <;> intro v hv <;> unfold unlabeledAssign at hv <;>
    split_ifs at hv <;>
    first
      | (exact hassign.1 v (truthyOpt_some hv).1)
      | (exact hassign.2.1 v (truthyOpt_some hv).1)
      | (exact hassign.2.2 v (truthyOpt_some hv).1)
      | (exact List.get?_mem hv)

theorem dropFirstSuchThat_sub (p : α → Bool) (l : List α) :
    dropFirstSuchThat p l ⊆ l := by
  induction l with
  | nil => simp [dropFirstSuchThat]
  | cons a t ih =>
    unfold dropFirstSuchThat
    split
    · exact fun x hx => List.mem_cons_of_mem a hx
    · exact List.cons_subset_cons a ih

theorem unlabeledPool_sub (lines : List String) :
    unlabeledPool lines ⊆ lines := by
  unfold unlabeledPool
  intro x hx
  exact dropFirstSuchThat_sub isPhoneNumber lines (List.mem_of_mem_filter hx)

theorem messageLines_mem {body : String} {l : String}
    (h : l ∈ messageLines body) : (∃ x, l = jsTrim x) ∧ l ≠ "" := by
  unfold messageLines at h
  rw [List.mem_filter] at h
  obtain ⟨hmem, hne⟩ := h
  rw [List.mem_map] at hmem
  obtain ⟨x, _, rfl⟩ := hmem
  exact ⟨⟨x, rfl⟩, by simpa using hne⟩

theorem labeledStep_trim (today : CalDate) (r : ParsedFields) (l : String)
    (h : (∀ v, r.customerName = some v → ∃ x, v = jsTrim x) ∧
         (∀ v, r.phoneNumber = some v → ∃ x, v = jsTrim x) ∧
         (∀ v, r.address = some v → ∃ x, v = jsTrim x) ∧
         (∀ v, r.items = some v → ∃ x, v = jsTrim x)) :
    (∀ v, (labeledStep today r l).customerName = some v → ∃ x, v = jsTrim x) ∧
    (∀ v, (labeledStep today r l).phoneNumber = some v → ∃ x, v = jsTrim x) ∧
    (∀ v, (labeledStep today r l).address = some v → ∃ x, v = jsTrim x) ∧
    (∀ v, (labeledStep today r l).items = some v → ∃ x, v = jsTrim x) := by
  obtain ⟨h1, h2, h3, h4⟩ := h
  refine ⟨?_, ?_, ?_, ?_⟩ <;> intro v hv <;> simp only [labeledStep] at hv <;>
    split_ifs at hv <;>
    first
      | (exact h1 v hv)
      | (exact h2 v hv)
      | (exact h3 v hv)
      | (exact h4 v hv)
      | (exact ⟨_, (Option.some_inj.mp hv).symm⟩)

theorem parseLabeledFormat_trim (today : CalDate) (lines : List String) :
    (∀ v, (parseLabeledFormat today lines).customerName = some v → ∃ x, v = jsTrim x) ∧
    (∀ v, (parseLabeledFormat today lines).phoneNumber = some v → ∃ x, v = jsTrim x) ∧
    (∀ v, (parseLabeledFormat today lines).address = some v → ∃ x, v = jsTrim x) ∧
    (∀ v, (parseLabeledFormat today lines).items = some v → ∃ x, v = jsTrim x) := by
  unfold parseLabeledFormat
  generalize hinit : (⟨none, none, none, none, none⟩ : ParsedFields) = r
  have hr : (∀ v, r.customerName = some v → ∃ x, v = jsTrim x) ∧
      (∀ v, r.phoneNumber = some v → ∃ x, v = jsTrim x) ∧
      (∀ v, r.address = some v → ∃ x, v = jsTrim x) ∧
      (∀ v, r.items = some v → ∃ x, v = jsTrim x) := by
    subst hinit
    refine ⟨?_, ?_, ?_, ?_⟩ <;> intro v hv <;> simp at hv
  clear hinit
  induction lines generalizing r with
  | nil => exact hr
  | cons l t ih =>
    rw [List.foldl_cons]
    exact ih _ (labeledStep_trim today r l hr)

theorem parseUnlabeledFormat_fields (today : CalDate) (lines : List String) :
    (∀ v, (parseUnlabeledFormat today lines).customerName = some v → v ∈ lines) ∧
    (∀ v, (parseUnlabeledFormat today lines).phoneNumber = some v → ∃ x, v = jsTrim x) ∧
    (∀ v, (parseUnlabeledFormat today lines).address = some v → v ∈ lines) ∧
    (∀ v, (parseUnlabeledFormat today lines).items = some v → v ∈ lines) := by
  have hasg := unlabeledAssign_mem (unlabeledPool lines)
  have hsub := unlabeledPool_sub lines
  unfold parseUnlabeledFormat
  refine ⟨?_, ?_, ?_, ?_⟩ <;> intro v hv <;> simp only at hv
  · exact hsub (hasg.1 v hv)
  · rw [Option.map_eq_some'] at hv
    obtain ⟨x, _, rfl⟩ := hv
    exact ⟨x, rfl⟩
  · exact hsub (hasg.2.1 v hv)
  · exact hsub (hasg.2.2 v hv)

theorem mergedFields_req (today : CalDate) (lines : List String)
    (hlines : ∀ l ∈ lines, (∃ x, l = jsTrim x) ∧ l ≠ "") :
    (∀ v, (mergedFields today lines).customerName = some v →
        v ≠ "" ∧ ∃ x, v = jsTrim x) ∧
    (∀ v, (mergedFields today lines).phoneNumber = some v →
        v ≠ "" ∧ ∃ x, v = jsTrim x) ∧
    (∀ v, (mergedFields today lines).address = some v →
        v ≠ "" ∧ ∃ x, v = jsTrim x) ∧
    (∀ v, (mergedFields today lines).items = some v →
        v ≠ "" ∧ ∃ x, v = jsTrim x) := by
  have hlab := parseLabeledFormat_trim today lines
  have hu := parseUnlabeledFormat_fields today lines
  refine ⟨?_, ?_, ?_, ?_⟩ <;> intro v hv <;> simp only [mergedFields] at hv <;>
    split_ifs at hv
  · rcases orElse_some hv with h | h
    · obtain ⟨hl, hne⟩ := truthyOpt_some h
      exact ⟨hne, hlab.1 v hl⟩
    · obtain ⟨hl, hne⟩ := truthyOpt_some h
      exact ⟨hne, (hlines v (hu.1 v hl)).1⟩
  · obtain ⟨hl, hne⟩ := truthyOpt_some hv
    exact ⟨hne, hlab.1 v hl⟩
  · rcases orElse_some hv with h | h
    · obtain ⟨hl, hne⟩ := truthyOpt_some h
      exact ⟨hne, hlab.2.1 v hl⟩
    · obtain ⟨hl, hne⟩ := truthyOpt_some h
      exact ⟨hne, hu.2.1 v hl⟩
  · obtain ⟨hl, hne⟩ := truthyOpt_some hv
    exact ⟨hne, hlab.2.1 v hl⟩
  · rcases orElse_some hv with h | h
    · obtain ⟨hl, hne⟩ := truthyOpt_some h
      exact ⟨hne, hlab.2.2.1 v hl⟩
    · obtain ⟨hl, hne⟩ := truthyOpt_some h
      exact ⟨hne, (hlines v (hu.2.2.1 v hl)).1⟩
  · obtain ⟨hl, hne⟩ := truthyOpt_some hv
    exact ⟨hne, hlab.2.2.1 v hl⟩
  · rcases orElse_some hv with h | h
    · obtain ⟨hl, hne⟩ := truthyOpt_some h
      exact ⟨hne, hlab.2.2.2 v hl⟩
    · obtain ⟨hl, hne⟩ := truthyOpt_some h
      exact ⟨hne, (hlines v (hu.2.2.2 v hl)).1⟩
  · obtain ⟨hl, hne⟩ := truthyOpt_some hv
    exact ⟨hne, hlab.2.2.2 v hl⟩

theorem trim_fix {v : String} (h : (∃ x, v = jsTrim x) ∧ v ≠ "") :
    jsTrim v = v ∧ jsTrim v ≠ "" := by
  obtain ⟨⟨x, rfl⟩, hne⟩ := h
  rw [jsTrim_idem]
  exact ⟨rfl, hne⟩

/-- **C6.** `parseOrder` is total (never throws) and returns `none` exactly
when fewer than 3 trimmed non-empty lines remain or when, after merging the
labeled and heuristic results, one of `customerName`, `phoneNumber`,
`address`, `items` is still missing — the delivery date never appears in the
rejection condition; every accepted draft has its four required fields
non-empty and already trimmed. -/
theorem claim_C6 (today : CalDate) (body sender : String) :
    (parseOrder today body sender = none ↔
      ((messageLines body).length < 3 ∨
        (mergedFields today (messageLines body)).customerName = none ∨
        (mergedFields today (messageLines body)).phoneNumber = none ∨
        (mergedFields today (messageLines body)).address = none ∨
        (mergedFields today (messageLines body)).items = none)) ∧
    (∀ o, parseOrder today body sender = some o →
      (o.customerName ≠ "" ∧ jsTrim o.customerName = o.customerName) ∧
      (o.phoneNumber ≠ "" ∧ jsTrim o.phoneNumber = o.phoneNumber) ∧
      (o.address ≠ "" ∧ jsTrim o.address = o.address) ∧
      (o.items ≠ "" ∧ jsTrim o.items = o.items)) := by
  have hmerged := mergedFields_req today (messageLines body)
    (fun l hl => messageLines_mem hl)
  constructor
  · by_cases hlen : (messageLines body).length < 3
    · simp [parseOrder, hlen]
    · rcases hcn : (mergedFields today (messageLines body)).customerName with _ | cn <;>
      rcases hpn : (mergedFields today (messageLines body)).phoneNumber with _ | pn <;>
      rcases had : (mergedFields today (messageLines body)).address with _ | ad <;>
      rcases hit : (mergedFields today (messageLines body)).items with _ | it <;>
        simp [parseOrder, hlen, hcn, hpn, had, hit]
  · intro o ho
    simp only [parseOrder] at ho
    split_ifs at ho with hlen
    rcases hcn : (mergedFields today (messageLines body)).customerName with _ | cn <;>
      rw [hcn] at ho
    · simp at ho
    rcases hpn : (mergedFields today (messageLines body)).phoneNumber with _ | pn <;>
      rw [hpn] at ho
    · simp at ho
    rcases had : (mergedFields today (messageLines body)).address with _ | ad <;>
      rw [had] at ho
    · simp at ho
    rcases hit : (mergedFields today (messageLines body)).items with _ | it <;>
      rw [hit] at ho
    · simp at ho
    simp only [Option.some_inj] at ho
    subst ho
    have hc := hmerged.1 cn hcn
    have hp := hmerged.2.1 pn hpn
    have ha := hmerged.2.2.1 ad had
    have hi := hmerged.2.2.2 it hit
    refine ⟨?_, ?_, ?_, ?_⟩ <;> simp only
    · obtain ⟨heq, hne⟩ := trim_fix ⟨hc.2, hc.1⟩
      exact ⟨hne, by rw [heq]; exact heq⟩
    · obtain ⟨heq, hne⟩ := trim_fix ⟨hp.2, hp.1⟩
      exact ⟨hne, by rw [heq]; exact heq⟩
    · obtain ⟨heq, hne⟩ := trim_fix ⟨ha.2, ha.1⟩
      exact ⟨hne, by rw [heq]; exact heq⟩
    · obtain ⟨heq, hne⟩ := trim_fix ⟨hi.2, hi.1⟩
      exact ⟨hne, by rw [heq]; exact heq⟩

/-- Witness for C6: the spec's own end-to-end example message is accepted
with all four fields non-empty and trimmed. -/
theorem claim_C6_witness :
    parseOrder ⟨2024, 1, 15⟩
        "Name: Amaka Obi\nPhone: 08012345678\nAddress: 12 Allen Avenue, Ikeja\nItems: 2x Jollof rice, 1 chicken\nTomorrow"
        "Wes"
      = some ⟨"Amaka Obi", "08012345678", "12 Allen Avenue, Ikeja",
          "2x Jollof rice, 1 chicken", some "2024-01-16", "Wes"⟩ ∧
    ((("Amaka Obi" : String) ≠ "" ∧ jsTrim "Amaka Obi" = "Amaka Obi") ∧
     (("08012345678" : String) ≠ "" ∧ jsTrim "08012345678" = "08012345678") ∧
     (("12 Allen Avenue, Ikeja" : String) ≠ "" ∧
        jsTrim "12 Allen Avenue, Ikeja" = "12 Allen Avenue, Ikeja") ∧
     (("2x Jollof rice, 1 chicken" : String) ≠ "" ∧
        jsTrim "2x Jollof rice, 1 chicken" = "2x Jollof rice, 1 chicken")) := by
  have h : parseOrder ⟨2024, 1, 15⟩
      "Name: Amaka Obi\nPhone: 08012345678\nAddress: 12 Allen Avenue, Ikeja\nItems: 2x Jollof rice, 1 chicken\nTomorrow"
      "Wes"
    = some ⟨"Amaka Obi", "08012345678", "12 Allen Avenue, Ikeja",
        "2x Jollof rice, 1 chicken", some "2024-01-16", "Wes"⟩ := by rfl
  exact ⟨h, (claim_C6 ⟨2024, 1, 15⟩ _ "Wes").2 _ h⟩

/-! ## Phone-normalization claims -/

/-- **C10.** `isPhoneNumber` returns `true` exactly when the string has
between 10 and 15 digit characters after stripping non-digits; the prefix
disjuncts can never reject a string that passed the length check, because the
final disjunct (at least 10 digits) is then always satisfied. -/
theorem claim_C10 (s : String) :
    isPhoneNumber s = true ↔
      10 ≤ (cleanedDigits s).length ∧ (cleanedDigits s).length ≤ 15 := by
  unfold isPhoneNumber
  by_cases h : (cleanedDigits s).length < 10 ∨ (cleanedDigits s).length > 15
  · rw [if_pos h]
    constructor
    · intro hfalse; cases hfalse
    · intro hb; omega
  · rw [if_neg h]
    push_neg at h
    have h10 : decide ((cleanedDigits s).length ≥ 10) = true := by
      simp; omega
    constructor
    · intro _; omega
    · intro _; simp [h10]

/-- **C5.** Phone normalization maps `08012345678` and `2348012345678` to
`+2348012345678`, and in general agrees with the spec's description: strip
non-digits, replace a leading `0` by `234`, prepend `234` when missing, and
prefix `+`. -/
theorem claim_C5 :
    formatPhoneNumber "08012345678" = "+2348012345678" ∧
    formatPhoneNumber "2348012345678" = "+2348012345678" ∧
    ∀ s : String, formatPhoneNumber s = normalizePhoneSpec s :=
  ⟨by decide, by decide, formatPhoneNumber_eq_spec⟩

/-- **C4 counterexample.** The claim asserts that normalization is not
idempotent for some input; in fact `formatPhoneNumber` is idempotent on every
string, so no such input exists. -/
theorem claim_C4_counterexample :
    ¬ ∃ s : String,
        formatPhoneNumber (formatPhoneNumber s) ≠ formatPhoneNumber s := by
  rintro ⟨s, hs⟩
  exact hs (formatPhoneNumber_idem s)

/-- **C4 (amended).** Phone normalization is idempotent on every input,
including already-bare national numbers without a leading `0` such as
`8012345678`. -/
theorem claim_C4 :
    formatPhoneNumber (formatPhoneNumber "8012345678")
        = formatPhoneNumber "8012345678" ∧
    ∀ s : String,
      formatPhoneNumber (formatPhoneNumber s) = formatPhoneNumber s :=
  ⟨formatPhoneNumber_idem "8012345678", formatPhoneNumber_idem⟩

/-! ## Supporting lemmas for the lifecycle claims -/

theorem applyStatusFields_orderId (s : String) (dp : Option String) (n : Nat)
    (o : DbOrder) : (applyStatusFields s dp n o).orderId = o.orderId := by
  unfold applyStatusFields
  split_ifs <;> rfl

theorem updRow_orderId (rid s : String) (dp : Option String) (n : Nat)
    (r : DbOrder) : (updRow rid s dp n r).orderId = r.orderId := by
  unfold updRow
  split_ifs <;> simp [applyStatusFields_orderId]

theorem updRow_other (rid s : String) (dp : Option String) (n : Nat)
    (r : DbOrder) (h : (r.orderId == rid) = false) : updRow rid s dp n r = r := by
  simp [updRow, h]

theorem find?_map_updRow (rid s : String) (dp : Option String) (n : Nat)
    (oid : String) (l : List DbOrder) :
    (l.map (updRow rid s dp n)).find? (fun o => o.orderId == oid)
      = (l.find? (fun o => o.orderId == oid)).map (updRow rid s dp n) := by
  induction l with
  | nil => rfl
  | cons a t ih =>
    cases h : a.orderId == oid
    · rw [List.map_cons,
        List.find?_cons_of_neg _ (by simp [updRow_orderId, h]),
        List.find?_cons_of_neg _ (by simp [h]), ih]
    · rw [List.map_cons,
        List.find?_cons_of_pos _ (by simp [updRow_orderId, h]),
        List.find?_cons_of_pos _ (by simp [h])]
      rfl

theorem find?_status_upd_other (l : List DbOrder) (rid s : String)
    (dp : Option String) (n : Nat) (oid : String) (h : oid ≠ rid) :
    ((l.map (updRow rid s dp n)).find? (fun o => o.orderId == oid)).map
        (fun o => o.status)
      = (l.find? (fun o => o.orderId == oid)).map (fun o => o.status) := by
  rw [find?_map_updRow]
  cases hf : l.find? (fun o => o.orderId == oid) with
  | none => rfl
  | some e =>
    have he : (e.orderId == oid) = true := by
      have := List.find?_some hf
      simpa using this
    have hne : (e.orderId == rid) = false := by
      rw [beq_iff_eq] at he
      simp [he, h]
    simp [updRow_other rid s dp n e hne]

/-- The four outcomes of `markOrderAsDelivered` with no persistence failure,
fully characterized by the read snapshot. -/
theorem mark_spec (st : Store) (rid dp : String) (now : Nat) :
    (st.orders.find? (fun o => o.orderId == rid) = none →
      markOrderAsDelivered st rid dp now false false = (.notFound, st)) ∧
    (∀ o, st.orders.find? (fun o => o.orderId == rid) = some o →
      o.status = "delivered" →
      markOrderAsDelivered st rid dp now false false = (.alreadyDelivered, st)) ∧
    (∀ o, st.orders.find? (fun o => o.orderId == rid) = some o →
      o.status = "cancelled" →
      markOrderAsDelivered st rid dp now false false = (.invalidTransition, st)) ∧
    (∀ o, st.orders.find? (fun o => o.orderId == rid) = some o →
      o.status ≠ "delivered" → o.status ≠ "cancelled" →
      markOrderAsDelivered st rid dp now false false
        = (.success,
           ⟨st.orders.map (updRow rid "delivered" (some dp) now),
            st.history ++ [⟨rid, "delivered", dp, "Status changed to delivered"⟩]⟩)) := by
  refine ⟨?_, ?_, ?_, ?_⟩
  · intro h
    unfold markOrderAsDelivered
    rw [h]
  · intro o h hs
    unfold markOrderAsDelivered
    rw [h]
    simp [hs]
  · intro o h hs
    unfold markOrderAsDelivered
    rw [h]
    simp [hs]
  · intro o h h1 h2
    have g1 : (o.status == "delivered") = false := by simp [h1]
    have g2 : (o.status == "cancelled") = false := by simp [h2]
    unfold markOrderAsDelivered
    rw [h]
    simp only [g1, g2, Bool.false_eq_true, if_false]
    unfold updateOrderStatus
    rw [h]
    simp [addOrderHistory]

/-- The four outcomes of `cancelOrder` with no persistence failure. -/
theorem cancel_spec (st : Store) (rid cb : String) (now : Nat) :
    (st.orders.find? (fun o => o.orderId == rid) = none →
      cancelOrder st rid cb now false false = (.notFound, st)) ∧
    (∀ o, st.orders.find? (fun o => o.orderId == rid) = some o →
      o.status = "cancelled" →
      cancelOrder st rid cb now false false = (.alreadyCancelled, st)) ∧
    (∀ o, st.orders.find? (fun o => o.orderId == rid) = some o →
      o.status = "delivered" →
      cancelOrder st rid cb now false false = (.invalidTransition, st)) ∧
    (∀ o, st.orders.find? (fun o => o.orderId == rid) = some o →
      o.status ≠ "cancelled" → o.status ≠ "delivered" →
      cancelOrder st rid cb now false false
        = (.success,
           ⟨st.orders.map (updRow rid "cancelled" none now),
            st.history ++ [⟨rid, "cancelled", cb, "Status changed to cancelled"⟩]⟩)) := by
  refine ⟨?_, ?_, ?_, ?_⟩
  · intro h
    unfold cancelOrder
    rw [h]
  · intro o h hs
    unfold cancelOrder
    rw [h]
    simp [hs]
  · intro o h hs
    unfold cancelOrder
    rw [h]
    simp [hs]
  · intro o h h1 h2
    have g1 : (o.status == "cancelled") = false := by simp [h1]
    have g2 : (o.status == "delivered") = false := by simp [h2]
    unfold cancelOrder
    rw [h]
    simp only [g1, g2, Bool.false_eq_true, if_false]
    unfold updateOrderStatus
    rw [h]
    simp [addOrderHistory]

theorem statusOf_isSome_iff (st : Store) (oid : String) :
    (statusOf st oid).isSome = true ↔
      ∃ o, st.orders.find? (fun o => o.orderId == oid) = some o := by
  unfold statusOf
  cases h : st.orders.find? (fun o => o.orderId == oid) <;> simp [h]

theorem statusOf_eq_some (st : Store) (oid s : String)
    (h : statusOf st oid = some s) :
    ∃ o, st.orders.find? (fun o => o.orderId == oid) = some o ∧ o.status = s := by
  unfold statusOf at h
  cases hf : st.orders.find? (fun o => o.orderId == oid) with
  | none => rw [hf] at h; cases h
  | some o =>
    rw [hf] at h
    exact ⟨o, rfl, by simpa using h⟩

theorem execReq_stay (now : Nat) (st : Store) (r : Req)
    (h : (execReq now st r).1 ≠ Outcome.success) : (execReq now st r).2 = st := by
  rcases r with ⟨k, rid, actor⟩
  cases k <;> simp only [execReq] at h ⊢
  · rcases hf : st.orders.find? (fun o => o.orderId == rid) with _ | o
    · rw [(mark_spec st rid actor now).1 hf]
    · by_cases h1 : o.status = "delivered"
      · rw [(mark_spec st rid actor now).2.1 o hf h1]
      by_cases h2 : o.status = "cancelled"
      · rw [(mark_spec st rid actor now).2.2.1 o hf h2]
      · rw [(mark_spec st rid actor now).2.2.2 o hf h1 h2] at h
        simp at h
  · rcases hf : st.orders.find? (fun o => o.orderId == rid) with _ | o
    · rw [(cancel_spec st rid actor now).1 hf]
    · by_cases h1 : o.status = "cancelled"
      · rw [(cancel_spec st rid actor now).2.1 o hf h1]
      by_cases h2 : o.status = "delivered"
      · rw [(cancel_spec st rid actor now).2.2.1 o hf h2]
      · rw [(cancel_spec st rid actor now).2.2.2 o hf h1 h2] at h
        simp at h

theorem execReq_terminal_stay (now : Nat) (st : Store) (r : Req) (oid : String)
    (hoid : r.orderId = oid)
    (hterm : statusOf st oid = some "delivered" ∨ statusOf st oid = some "cancelled") :
    (execReq now st r).1 ≠ Outcome.success ∧ (execReq now st r).2 = st := by
  rcases r with ⟨k, rid, actor⟩
  simp only at hoid
  subst hoid
  have hst : ∃ o, st.orders.find? (fun o => o.orderId == rid) = some o ∧
      (o.status = "delivered" ∨ o.status = "cancelled") := by
    rcases hterm with h | h
    · obtain ⟨o, hf, hs⟩ := statusOf_eq_some st rid _ h
      exact ⟨o, hf, Or.inl hs⟩
    · obtain ⟨o, hf, hs⟩ := statusOf_eq_some st rid _ h
      exact ⟨o, hf, Or.inr hs⟩
  obtain ⟨o, hf, hs⟩ := hst
  cases k <;> simp only [execReq]
  · rcases hs with hs | hs
    · rw [(mark_spec st rid actor now).2.1 o hf hs]
      simp
    · rw [(mark_spec st rid actor now).2.2.1 o hf hs]
      simp
  · rcases hs with hs | hs
    · rw [(cancel_spec st rid actor now).2.2.1 o hf hs]
      simp
    · rw [(cancel_spec st rid actor now).2.1 o hf hs]
      simp

theorem execReq_success_terminal (now : Nat) (st : Store) (r : Req) (oid : String)
    (hoid : r.orderId = oid) (h : (execReq now st r).1 = Outcome.success) :
    statusOf (execReq now st r).2 oid = some "delivered" ∨
    statusOf (execReq now st r).2 oid = some "cancelled" := by
  rcases r with ⟨k, rid, actor⟩
  simp only at hoid
  subst hoid
  cases k <;> simp only [execReq] at h ⊢
  · rcases hf : st.orders.find? (fun o => o.orderId == rid) with _ | o
    · rw [(mark_spec st rid actor now).1 hf] at h
      simp at h
    · by_cases h1 : o.status = "delivered"
      · rw [(mark_spec st rid actor now).2.1 o hf h1] at h
        simp at h
      by_cases h2 : o.status = "cancelled"
      · rw [(mark_spec st rid actor now).2.2.1 o hf h2] at h
        simp at h
      · left
        rw [(mark_spec st rid actor now).2.2.2 o hf h1 h2]
        have he : (o.orderId == rid) = true := by
          have := List.find?_some hf
          simpa using this
        unfold statusOf
        rw [find?_map_updRow, hf]
        simp [updRow, he, applyStatusFields]
  · rcases hf : st.orders.find? (fun o => o.orderId == rid) with _ | o
    · rw [(cancel_spec st rid actor now).1 hf] at h
      simp at h
    · by_cases h1 : o.status = "cancelled"
      · rw [(cancel_spec st rid actor now).2.1 o hf h1] at h
        simp at h
      by_cases h2 : o.status = "delivered"
      · rw [(cancel_spec st rid actor now).2.2.1 o hf h2] at h
        simp at h
      · right
        rw [(cancel_spec st rid actor now).2.2.2 o hf h1 h2]
        have he : (o.orderId == rid) = true := by
          have := List.find?_some hf
          simpa using this
        unfold statusOf
        rw [find?_map_updRow, hf]
        simp [updRow, he, applyStatusFields]

theorem execReq_other (now : Nat) (st : Store) (r : Req) (oid : String)
    (h : r.orderId ≠ oid) :
    statusOf (execReq now st r).2 oid = statusOf st oid := by
  rcases r with ⟨k, rid, actor⟩
  simp only at h
  cases k <;> simp only [execReq]
  · rcases hf : st.orders.find? (fun o => o.orderId == rid) with _ | o
    · rw [(mark_spec st rid actor now).1 hf]
    · by_cases h1 : o.status = "delivered"
      · rw [(mark_spec st rid actor now).2.1 o hf h1]
      by_cases h2 : o.status = "cancelled"
      · rw [(mark_spec st rid actor now).2.2.1 o hf h2]
      · rw [(mark_spec st rid actor now).2.2.2 o hf h1 h2]
        unfold statusOf
        exact find?_status_upd_other st.orders rid "delivered" (some actor) now oid
          (fun he => h he.symm)
  · rcases hf : st.orders.find? (fun o => o.orderId == rid) with _ | o
    · rw [(cancel_spec st rid actor now).1 hf]
    · by_cases h1 : o.status = "cancelled"
      · rw [(cancel_spec st rid actor now).2.1 o hf h1]
      by_cases h2 : o.status = "delivered"
      · rw [(cancel_spec st rid actor now).2.2.1 o hf h2]
      · rw [(cancel_spec st rid actor now).2.2.2 o hf h1 h2]
        unfold statusOf
        exact find?_status_upd_other st.orders rid "cancelled" none now oid
          (fun he => h he.symm)

theorem execReq_exists (now : Nat) (st : Store) (r : Req) (oid : String)
    (h : (statusOf st oid).isSome = true) :
    (statusOf (execReq now st r).2 oid).isSome = true := by
  by_cases hr : r.orderId = oid
  · by_cases hsucc : (execReq now st r).1 = Outcome.success
    · rcases execReq_success_terminal now st r oid hr hsucc with h' | h' <;> simp [h']
    · rw [execReq_stay now st r hsucc]
      exact h
  · rw [execReq_other now st r oid hr]
    exact h

theorem execReq_outcome_typed (now : Nat) (st : Store) (r : Req) (oid : String)
    (hoid : r.orderId = oid) (h : (statusOf st oid).isSome = true) :
    (execReq now st r).1 = Outcome.success ∨
    (execReq now st r).1 = Outcome.alreadyDelivered ∨
    (execReq now st r).1 = Outcome.alreadyCancelled ∨
    (execReq now st r).1 = Outcome.invalidTransition := by
  obtain ⟨o, hf⟩ := (statusOf_isSome_iff st oid).mp h
  rcases r with ⟨k, rid, actor⟩
  simp only at hoid
  subst hoid
  cases k <;> simp only [execReq]
  · by_cases h1 : o.status = "delivered"
    · rw [(mark_spec st rid actor now).2.1 o hf h1]
      simp
    by_cases h2 : o.status = "cancelled"
    · rw [(mark_spec st rid actor now).2.2.1 o hf h2]
      simp
    · rw [(mark_spec st rid actor now).2.2.2 o hf h1 h2]
      simp
  · by_cases h1 : o.status = "cancelled"
    · rw [(cancel_spec st rid actor now).2.1 o hf h1]
      simp
    by_cases h2 : o.status = "delivered"
    · rw [(cancel_spec st rid actor now).2.2.1 o hf h2]
      simp
    · rw [(cancel_spec st rid actor now).2.2.2 o hf h1 h2]
      simp

theorem runSeq_terminal_zero (now : Nat) (oid : String) :
    ∀ (reqs : List Req) (st : Store),
      (statusOf st oid = some "delivered" ∨ statusOf st oid = some "cancelled") →
      successCount oid reqs (runSeq now st reqs).1 = 0 := by
  intro reqs
  induction reqs with
  | nil => intro st _; rfl
  | cons r rs ih =>
    intro st h
    simp only [runSeq, successCount]
    by_cases hr : r.orderId = oid
    · obtain ⟨hns, hst⟩ := execReq_terminal_stay now st r oid hr h
      have h2 : ((execReq now st r).1 == Outcome.success) = false := by
        simp [hns]
      rw [hst]
      simp [h2, ih st h]
    · have h1 : (r.orderId == oid) = false := by simp [hr]
      have hstat := execReq_other now st r oid hr
      simp only [h1, Bool.false_and, Bool.false_eq_true, if_false, Nat.zero_add]
      exact ih _ (by rw [hstat]; exact h)

theorem runSeq_le_one (now : Nat) (oid : String) :
    ∀ (reqs : List Req) (st : Store),
      successCount oid reqs (runSeq now st reqs).1 ≤ 1 := by
  intro reqs
  induction reqs with
  | nil => intro st; simp [runSeq, successCount]
  | cons r rs ih =>
    intro st
    simp only [runSeq, successCount]
    by_cases hcond : (r.orderId == oid && (execReq now st r).1 == Outcome.success) = true
    · rw [Bool.and_eq_true] at hcond
      have hr : r.orderId = oid := by simpa using hcond.1
      have hs : (execReq now st r).1 = Outcome.success := by simpa using hcond.2
      have hterm := execReq_success_terminal now st r oid hr hs
      have hzero := runSeq_terminal_zero now oid rs (execReq now st r).2 hterm
      simp [hcond.1, hcond.2, hzero]
    · have : (r.orderId == oid && (execReq now st r).1 == Outcome.success) = false := by
        simpa using hcond
      rw [this]
      simp only [Bool.false_eq_true, if_false, Nat.zero_add]
      exact ih _

theorem runSeq_losers_typed (now : Nat) (oid : String) :
    ∀ (reqs : List Req) (st : Store),
      (statusOf st oid).isSome = true →
      ∀ p ∈ reqs.zip (runSeq now st reqs).1, p.1.orderId = oid →
        p.2 = Outcome.success ∨ p.2 = Outcome.alreadyDelivered ∨
        p.2 = Outcome.alreadyCancelled ∨ p.2 = Outcome.invalidTransition := by
  intro reqs
  induction reqs with
  | nil => intro st _ p hp; simp [runSeq] at hp
  | cons r rs ih =>
    intro st h p hp hpo
    simp only [runSeq, List.zip_cons_cons] at hp
    rcases List.mem_cons.mp hp with hp | hp
    · subst hp
      exact execReq_outcome_typed now st r oid hpo h
    · exact ih (execReq now st r).2 (execReq_exists now st r oid h) p hp hpo

/-! ## Lifecycle and concurrency claims -/

/-- **C9 counterexample.** The read and the conditional write of a transition
are separate store operations, so the interleaving read₁ read₂ write₁ write₂
lets a deliver and a cancel of the same pending order both report success,
the cancel silently overwriting the delivered state. -/
theorem claim_C9_counterexample :
    (runSchedule 0 raceReqs [0, 1, 0, 1] pendingStore [.ready, .ready]).1
        = [.done .success, .done .success] ∧
    statusOf (runSchedule 0 raceReqs [0, 1, 0, 1] pendingStore [.ready, .ready]).2
        "ORD20240115042" = some "cancelled" :=
  ⟨rfl, rfl⟩

/-- **C9 (amended).** When every transition request runs to completion before
the next starts (read and write not interleaved), at most one terminal
transition per order ever succeeds, and — provided the order exists — every
request for it observes success, `AlreadyDelivered`, `AlreadyCancelled` or
`InvalidTransition`, never a silent overwrite; under interleaved execution
the guarantee fails (see the counterexample). -/
theorem claim_C9 (now : Nat) (oid : String) (reqs : List Req) (st : Store) :
    successCount oid reqs (runSeq now st reqs).1 ≤ 1 ∧
    ((statusOf st oid).isSome = true →
      ∀ p ∈ reqs.zip (runSeq now st reqs).1, p.1.orderId = oid →
        p.2 = Outcome.success ∨ p.2 = Outcome.alreadyDelivered ∨
        p.2 = Outcome.alreadyCancelled ∨ p.2 = Outcome.invalidTransition) :=
  ⟨runSeq_le_one now oid reqs st,
   fun h p hp hpo => runSeq_losers_typed now oid reqs st h p hp hpo⟩

/-- Witness for C9: on the pending fixture run sequentially, the winning
deliver succeeds and the losing cancel observes `InvalidTransition`. -/
theorem claim_C9_witness :
    (statusOf pendingStore "ORD20240115042").isSome = true ∧
    (((⟨ReqKind.cancel, "ORD20240115042", "bob"⟩ : Req), Outcome.invalidTransition).2
        = Outcome.success ∨
      ((⟨ReqKind.cancel, "ORD20240115042", "bob"⟩ : Req), Outcome.invalidTransition).2
        = Outcome.alreadyDelivered ∨
      ((⟨ReqKind.cancel, "ORD20240115042", "bob"⟩ : Req), Outcome.invalidTransition).2
        = Outcome.alreadyCancelled ∨
      ((⟨ReqKind.cancel, "ORD20240115042", "bob"⟩ : Req), Outcome.invalidTransition).2
        = Outcome.invalidTransition) :=
  ⟨rfl, (claim_C9 0 "ORD20240115042" raceReqs pendingStore).2 (by rfl)
    (⟨ReqKind.cancel, "ORD20240115042", "bob"⟩, Outcome.invalidTransition)
    (by decide) rfl⟩

/-- **C2.** Creation yields a `pending` order and appends exactly one history
entry; `markDelivered` on a cancelled order mutates nothing and reports
`InvalidTransition` (whatever the failure flags); `markDelivered` twice on a
pending order performs exactly one transition to `delivered` with exactly one
new history entry, and the second call reports `AlreadyDelivered` mutating
nothing. -/
theorem claim_C2 (st : Store) (draft : ParsedOrder) (oid dp : String) (now : Nat) :
    ((st.orders.any (fun o => o.orderId == oid)) = false →
      createOrder st draft oid false false
        = (.ok (mkDbOrder draft oid),
           ⟨st.orders ++ [mkDbOrder draft oid],
            st.history ++ [⟨oid, "pending", draft.addedBy, "Order created"⟩]⟩) ∧
      (mkDbOrder draft oid).status = "pending") ∧
    (∀ o, st.orders.find? (fun r => r.orderId == oid) = some o →
      o.status = "cancelled" →
      ∀ f1 f2 : Bool, markOrderAsDelivered st oid dp now f1 f2 = (.invalidTransition, st)) ∧
    (∀ o, st.orders.find? (fun r => r.orderId == oid) = some o →
      o.status = "pending" →
      markOrderAsDelivered st oid dp now false false
        = (.success,
           ⟨st.orders.map (updRow oid "delivered" (some dp) now),
            st.history ++ [⟨oid, "delivered", dp, "Status changed to delivered"⟩]⟩) ∧
      statusOf ⟨st.orders.map (updRow oid "delivered" (some dp) now),
                st.history ++ [⟨oid, "delivered", dp, "Status changed to delivered"⟩]⟩ oid
        = some "delivered" ∧
      markOrderAsDelivered
          ⟨st.orders.map (updRow oid "delivered" (some dp) now),
           st.history ++ [⟨oid, "delivered", dp, "Status changed to delivered"⟩]⟩
          oid dp now false false
        = (.alreadyDelivered,
           ⟨st.orders.map (updRow oid "delivered" (some dp) now),
            st.history ++ [⟨oid, "delivered", dp, "Status changed to delivered"⟩]⟩)) := by
  refine ⟨?_, ?_, ?_⟩
  · intro hfresh
    constructor
    · simp [createOrder, hfresh, addOrderHistory]
    · rfl
  · intro o hf hs f1 f2
    unfold markOrderAsDelivered
    rw [hf]
    simp [hs]
  · intro o hf hs
    have h1 : o.status ≠ "delivered" := by rw [hs]; decide
    have h2 : o.status ≠ "cancelled" := by rw [hs]; decide
    have hmark := (mark_spec st oid dp now).2.2.2 o hf h1 h2
    refine ⟨hmark, ?_, ?_⟩
    · have he : (o.orderId == oid) = true := by
        have := List.find?_some hf
        simpa using this
      unfold statusOf
      simp only
      rw [find?_map_updRow, hf]
      simp [updRow, he, applyStatusFields]
    · have he : (o.orderId == oid) = true := by
        have := List.find?_some hf
        simpa using this
      have hf2 : (⟨st.orders.map (updRow oid "delivered" (some dp) now),
          st.history ++ [⟨oid, "delivered", dp, "Status changed to delivered"⟩]⟩ :
            Store).orders.find? (fun r => r.orderId == oid)
          = some (applyStatusFields "delivered" (some dp) now o) := by
        simp only
        rw [find?_map_updRow, hf]
        simp [updRow, he]
      have hst : (applyStatusFields "delivered" (some dp) now o).status = "delivered" := by
        simp [applyStatusFields]
      exact (mark_spec _ oid dp now).2.1 _ hf2 hst

/-- Witness for C2 at the concrete fixtures: a fresh creation, a delivered
attempt on the cancelled fixture, and a double delivery on the pending
fixture. -/
theorem claim_C2_witness :
    ((pendingStore.orders.any (fun o => o.orderId == "ORD20240116007")) = false ∧
      createOrder pendingStore sampleDraft "ORD20240116007" false false
        = (.ok (mkDbOrder sampleDraft "ORD20240116007"),
           ⟨pendingStore.orders ++ [mkDbOrder sampleDraft "ORD20240116007"],
            pendingStore.history ++
              [⟨"ORD20240116007", "pending", sampleDraft.addedBy, "Order created"⟩]⟩) ∧
      (mkDbOrder sampleDraft "ORD20240116007").status = "pending") ∧
    (cancelledOrder.status = "cancelled" ∧
      markOrderAsDelivered cancelledStore "ORD20240115042" "alice" 7 false false
        = (.invalidTransition, cancelledStore)) ∧
    (pendingOrder.status = "pending" ∧
      markOrderAsDelivered pendingStore "ORD20240115042" "alice" 7 false false
        = (.success,
           ⟨pendingStore.orders.map (updRow "ORD20240115042" "delivered" (some "alice") 7),
            pendingStore.history ++
              [⟨"ORD20240115042", "delivered", "alice", "Status changed to delivered"⟩]⟩)) := by
  refine ⟨⟨by rfl, ?_⟩, ⟨rfl, ?_⟩, ⟨rfl, ?_⟩⟩
  · exact (claim_C2 pendingStore sampleDraft "ORD20240116007" "alice" 7).1 (by rfl)
  · exact (claim_C2 cancelledStore sampleDraft "ORD20240115042" "alice" 7).2.1
      cancelledOrder (by rfl) rfl false false
  · exact ((claim_C2 pendingStore sampleDraft "ORD20240115042" "alice" 7).2.2
      pendingOrder (by rfl) rfl).1

/-- **C3 counterexample.** A failing append of the order-history entry during
creation is silently swallowed: `createOrder` still reports success and the
store simply lacks the history row. -/
theorem claim_C3_counterexample :
    createOrder ⟨[], []⟩ sampleDraft "ORD20240115042" false true
      = (.ok (mkDbOrder sampleDraft "ORD20240115042"),
         ⟨[mkDbOrder sampleDraft "ORD20240115042"], []⟩) :=
  rfl

/-- **C3 (amended).** Order-row writes that fail are propagated to the caller
as typed errors — a failing insert during creation and a failing update
during a status transition both surface as `persistenceFailure` with the
store untouched — but the order-history append is the exception: its failure
is caught inside `addOrderHistory` and the call still reports success with no
entry recorded. -/
theorem claim_C3 (st : Store) (draft : ParsedOrder)
    (oid status changedBy : String) (dp : Option String) (now : Nat)
    (hFlag : Bool) :
    createOrder st draft oid true hFlag = (.error .persistenceFailure, st) ∧
    updateOrderStatus st oid status changedBy dp now true hFlag
      = (.error .persistenceFailure, st) ∧
    ((st.orders.any (fun o => o.orderId == oid)) = false →
      createOrder st draft oid false true
        = (.ok (mkDbOrder draft oid),
           ⟨st.orders ++ [mkDbOrder draft oid], st.history⟩)) := by
  refine ⟨?_, ?_, ?_⟩
  · simp [createOrder]
  · simp [updateOrderStatus]
  · intro hfresh
    simp [createOrder, hfresh, addOrderHistory]

/-- Witness for C3 on the empty store. -/
theorem claim_C3_witness :
    (((⟨[], []⟩ : Store).orders.any (fun o => o.orderId == "ORD20240115042")) = false) ∧
    createOrder ⟨[], []⟩ sampleDraft "ORD20240115042" false true
      = (.ok (mkDbOrder sampleDraft "ORD20240115042"),
         ⟨([] : List DbOrder) ++ [mkDbOrder sampleDraft "ORD20240115042"], []⟩) :=
  ⟨rfl, (claim_C3 ⟨[], []⟩ sampleDraft "ORD20240115042" "delivered" "alice" none 7
      true).2.2 rfl⟩

/-! ## Command-interpreter claim -/

/-- **C8.** The dispatcher lowercases (and trims) the whole body before
extracting the id after `done #`, so `done #ORD20240115042` resolves to the
lowercased `ord20240115042`, not the id as written — and no generated order
id (always `ORD` + digits) can ever equal that lowercased id. -/
theorem claim_C8 :
    resolveCommand false "" "done #ORD20240115042"
        = Command.deliverById "ord20240115042" ∧
    ("ord20240115042" : String) ≠ "ORD20240115042" ∧
    ∀ (date8 : String) (rand : Nat),
      generateOrderId date8 rand ≠ "ord20240115042" := by
  refine ⟨rfl, by decide, ?_⟩
  intro d r h
  have hd : (generateOrderId d r).data.head? = some 'O' := by
    simp [generateOrderId, String.data_append]
  rw [h] at hd
  exact absurd hd (by decide)

end WhatsappBot
